import Mathlib

/-!
Verification development for the particle-life simulation core
(`gpu-particle-life`): genome codec and coherence scoring
(`src/components/genotype.rs`), evolution engine (`src/systems/reset.rs`),
spatial neighbor layer (`src/systems/torus_spatial.rs`), force law and
integration (`src/systems/movement.rs`, `src/resources/grid.rs`), and the
population archive (`src/systems/population_save.rs`).

Modelling conventions:
* `f32` values are embedded as exact rationals `ℚ` (ideal real arithmetic);
  every rational is "finite", so `f32::is_finite` is modelled as `True`.
  The one function whose result analytically depends on a square root
  (`calculate_acceleration`, which needs `Vec3::length`) is embedded over `ℝ`
  with `Real.sqrt`.
* `f32::sqrt` occurring in statistics code (`std_deviation`, genetic
  distance) never panics and its numeric value is irrelevant to every claim
  below, so those functions take the square-root map as an explicit function
  parameter `sqrtF : ℚ → ℚ` and the theorems hold for all `sqrtF`.
* Code that can panic (slice indexing out of bounds, `rand` range with an
  empty range) is embedded in `Option`, `none` marking the panic.  Because
  the spec explicitly forbids division by zero in the evolution statistics,
  the `f32` divisions of those functions are instrumented with a checked
  division `div?` that returns `none` on a zero denominator.
* The `rand::Rng` source is modelled as a stream of rational samples
  `RngState`; `random::<f32>()` consumes one sample (contract: uniform on
  the unit interval), `random_range(lo..=hi)` rescales one sample into
  `[lo, hi]`, `random_bool(0.5)` compares one sample with `1/2`.
-/

namespace ParticleLife

/-- Rust `f32::clamp(lo, hi)` (for `lo ≤ hi`): `self.max(lo).min(hi)`. -/
def clampQ (x lo hi : ℚ) : ℚ := min (max x lo) hi

/-! ## RNG model -/

/-- A pure model of `rand::Rng`: an infinite stream of `f32` samples plus a
cursor.  Each primitive below consumes exactly one sample. -/
structure RngState where
  f : ℕ → ℚ
  i : ℕ

/-- Draw the next raw sample. -/
def RngState.next (s : RngState) : ℚ × RngState := (s.f s.i, ⟨s.f, s.i + 1⟩)

/-- The stream obeys the `rand` contract for `random::<f32>()`: every raw
sample lies in the unit interval. -/
def RngState.InUnit (s : RngState) : Prop := ∀ n, 0 ≤ s.f n ∧ s.f n ≤ 1

/-- Source `rng.random::<f32>()`. -/
def random_f32 (s : RngState) : ℚ × RngState := s.next

/-- Source `rng.random_range(lo..=hi)` for `f32`: one sample rescaled into
`[lo, hi]`. -/
def random_range (lo hi : ℚ) (s : RngState) : ℚ × RngState :=
  let p := s.next
  (lo + (hi - lo) * p.1, p.2)

/-- Source `rng.random_bool(0.5)`. -/
def random_bool_half (s : RngState) : Bool × RngState :=
  let p := s.next
  (decide (p.1 < 1/2), p.2)

/-! ## Genome (`src/components/genotype.rs`) -/

/-- Source `Genotype`: flat force matrix (row-major, `type_count²` entries), food
affinities (`type_count` entries), fitness history, coherence score. -/
structure Genotype where
  force_matrix : List ℚ
  food_forces : List ℚ
  type_count : ℕ
  fitness_history : List ℚ
  strategy_coherence : ℚ
deriving DecidableEq

/-- Source `Genotype::new(type_count)`: zeroed matrix and food vector, coherence 1. -/
def Genotype.new (type_count : ℕ) : Genotype :=
  { force_matrix := List.replicate (type_count * type_count) 0
    food_forces := List.replicate type_count 0
    type_count := type_count
    fitness_history := []
    strategy_coherence := 1 }

/-- Source `Genotype::get_force`: flat lookup `force_matrix.get(a*type_count+b)`,
`0.0` when the flat index is out of bounds (`unwrap_or(0.0)`). -/
def Genotype.get_force (g : Genotype) (type_a type_b : ℕ) : ℚ :=
  (g.force_matrix[type_a * g.type_count + type_b]?).getD 0

/-- Source `Genotype::set_force`: in-place store, silently ignored when the flat
index is out of bounds. -/
def Genotype.set_force (g : Genotype) (type_a type_b : ℕ) (force : ℚ) :
    Genotype :=
  let index := type_a * g.type_count + type_b
  if index < g.force_matrix.length then
    { g with force_matrix := g.force_matrix.set index force }
  else g

/-- Source `Genotype::get_food_force`: `food_forces.get(t)`, default `0.0`. -/
def Genotype.get_food_force (g : Genotype) (particle_type : ℕ) : ℚ :=
  (g.food_forces[particle_type]?).getD 0

/-- Source `Genotype::check_oscillation_risk`: fraction of ordered distinct triples
`(i,j,k)` whose force cycle product is positive with magnitude `> 0.1`;
returns `1 - flagged/checked`, or `1.0` when no triple exists. -/
def Genotype.check_oscillation_risk (g : Genotype) : ℚ :=
  let acc := (List.range g.type_count).foldl (fun acc i =>
    (List.range g.type_count).foldl (fun acc2 j =>
      if i ≠ j then
        (List.range g.type_count).foldl (fun acc3 k =>
          if k ≠ i ∧ k ≠ j then
            let cycle_product :=
              g.get_force i j * g.get_force j k * g.get_force k i
            (if 1/10 < |cycle_product| ∧ 0 < cycle_product
              then acc3.1 + 1 else acc3.1, acc3.2 + 1)
          else acc3) acc2
      else acc2) acc) ((0 : ℕ), (0 : ℕ))
  if 0 < acc.2 then 1 - (acc.1 : ℚ) / (acc.2 : ℚ) else 1

/-- Source `Genotype::calculate_strategy_coherence`: weighted sum of reciprocity
(over ordered pairs `i ≠ j`), food-force balance and oscillation risk,
clamped into `[0,1]`; `0.5` when there are no ordered pairs. -/
def Genotype.calculate_strategy_coherence (g : Genotype) : ℚ :=
  let acc := (List.range g.type_count).foldl (fun acc i =>
    (List.range g.type_count).foldl (fun acc2 j =>
      if i ≠ j then
        let reciprocity := 1 - |g.get_force i j + g.get_force j i| / 4
        (acc2.1 + max reciprocity 0, acc2.2 + 1)
      else acc2) acc) ((0 : ℚ), (0 : ℕ))
  let coherence_score := acc.1
  let total_checks := acc.2
  let positive_food := (g.food_forces.filter (fun f => 0 < f)).length
  let negative_food := (g.food_forces.filter (fun f => f < 0)).length
  let food_balance := (min positive_food negative_food : ℚ) / (g.type_count : ℚ)
  let stability_score := g.check_oscillation_risk
  let final_score :=
    if 0 < total_checks then
      (coherence_score / (total_checks : ℚ)) * (1/2) + food_balance * (3/10)
        + stability_score * (1/5)
    else (1/2 : ℚ)
  clampQ final_score 0 1

/-- The data-model length invariant: `force_matrix.len() == type_count²` and
`food_forces.len() == type_count`. -/
def Genotype.GoodLengths (g : Genotype) : Prop :=
  g.force_matrix.length = g.type_count * g.type_count ∧
    g.food_forces.length = g.type_count

instance (g : Genotype) : Decidable g.GoodLengths := by
  unfold Genotype.GoodLengths; infer_instance

/-- A genome refuting C2 as stated: `type_count = 2`, so the flat index of
`(0, 2)` is `0*2+2 = 2 < 4` and aliases the in-bounds entry `(1, 0)`. -/
def g2cx : Genotype :=
  { force_matrix := [0, 0, 1, 0]
    food_forces := [0, 0]
    type_count := 2
    fitness_history := []
    strategy_coherence := 1 }

/-! ### Mutation (`Genotype::mutate`) -/

/-- Force-matrix pass of `Genotype::mutate`: per entry, one sample decides
whether to mutate; a mutated entry adds a `random_range(-amp..=amp)` delta
scaled by a conservative factor (`0.5` when `|old| > 0.5`) and is clamped
into `[-2, 2]`. -/
def mutate_forces (effective_rate amp : ℚ) :
    List ℚ → RngState → List ℚ × RngState
  | [], s => ([], s)
  | x :: xs, s =>
    let p := random_f32 s
    let step : ℚ × RngState :=
      if p.1 < effective_rate then
        let m := random_range (-amp) amp p.2
        let conservative : ℚ := if 1/2 < |x| then 1/2 else 1
        (clampQ (x + m.1 * conservative) (-2) 2, m.2)
      else (x, p.2)
    let rest := mutate_forces effective_rate amp xs step.2
    (step.1 :: rest.1, rest.2)

/-- Food-force pass of `Genotype::mutate`: mutation probability is
`effective_rate * 0.3`, no conservative factor, clamped into `[-2, 2]`. -/
def mutate_food (effective_rate amp : ℚ) :
    List ℚ → RngState → List ℚ × RngState
  | [], s => ([], s)
  | x :: xs, s =>
    let p := random_f32 s
    let step : ℚ × RngState :=
      if p.1 < effective_rate * (3/10) then
        let m := random_range (-amp) amp p.2
        (clampQ (x + m.1) (-2) 2, m.2)
      else (x, p.2)
    let rest := mutate_food effective_rate amp xs step.2
    (step.1 :: rest.1, rest.2)

/-- Source `Genotype::mutate`: effective rate `rate * (1.5 - coherence)`, amplitude
`0.1` for coherent genomes (`> 0.7`) else `0.2`; mutates forces then food,
then recomputes `strategy_coherence`. -/
def Genotype.mutate (g : Genotype) (mutation_rate : ℚ) (s : RngState) :
    Genotype × RngState :=
  let coherence_factor := g.strategy_coherence
  let effective_rate := mutation_rate * (3/2 - coherence_factor)
  let mutation_amplitude : ℚ := if 7/10 < coherence_factor then 1/10 else 1/5
  let fm := mutate_forces effective_rate mutation_amplitude g.force_matrix s
  let ff := mutate_food effective_rate mutation_amplitude g.food_forces fm.2
  let g' := { g with force_matrix := fm.1, food_forces := ff.1 }
  ({ g' with strategy_coherence := g'.calculate_strategy_coherence }, ff.2)

/-! ### Random genome generation (`Genotype::random`) -/

/-- One entry of `generate_candidate`'s force matrix: diagonal entries are
drawn from `-1.0..=-0.1` (auto-repulsion), off-diagonal from `-1.0..=1.0`. -/
def gen_force_entry (type_count : ℕ) (i : ℕ) (s : RngState) : ℚ × RngState :=
  let type_a := i / type_count
  let type_b := i % type_count
  if type_a = type_b then random_range (-1) (-1/10) s
  else random_range (-1) 1 s

/-- Sequentially draw one rational per index. -/
def gen_list (f : ℕ → RngState → ℚ × RngState) :
    List ℕ → RngState → List ℚ × RngState
  | [], s => ([], s)
  | i :: is, s =>
    let p := f i s
    let rest := gen_list f is p.2
    (p.1 :: rest.1, rest.2)

/-- Source `Genotype::generate_candidate`. -/
def generate_candidate (type_count : ℕ) (s : RngState) : Genotype × RngState :=
  let fm := gen_list (gen_force_entry type_count) (List.range (type_count * type_count)) s
  let ff := gen_list (fun _ s => random_range (-1) 1 s) (List.range type_count) fm.2
  ({ force_matrix := fm.1
     food_forces := ff.1
     type_count := type_count
     fitness_history := []
     strategy_coherence := 1 }, ff.2)

/-- The candidate loop of `Genotype::random`: five candidates, keeping the
one with the strictly best coherence. -/
def random_loop (type_count : ℕ) :
    ℕ → Genotype → ℚ → RngState → Genotype × ℚ × RngState
  | 0, best, best_coherence, s => (best, best_coherence, s)
  | n + 1, best, best_coherence, s =>
    let c := generate_candidate type_count s
    let coherence := c.1.calculate_strategy_coherence
    if best_coherence < coherence then
      random_loop type_count n c.1 coherence c.2
    else
      random_loop type_count n best best_coherence c.2

/-- Source `Genotype::random`: best of five candidates (starting from the zero
genome with best coherence `0.0`), its coherence field set to the winning
score. -/
def Genotype.random (type_count : ℕ) (s : RngState) : Genotype × RngState :=
  let r := random_loop type_count 5 (Genotype.new type_count) 0 s
  ({ r.1 with strategy_coherence := r.2.1 }, r.2.2)

/-! ### Fitness history -/

/-- Source `Genotype::update_fitness_history`: push, then cap at the 10 most
recent values. -/
def Genotype.update_fitness_history (g : Genotype) (fitness : ℚ) : Genotype :=
  let h := g.fitness_history ++ [fitness]
  { g with fitness_history := if 10 < h.length then h.tail else h }

/-- Source `Genotype::get_fitness_trend`: recent-vs-older 3-sample average delta,
`0.0` with fewer than 3 samples. -/
def Genotype.get_fitness_trend (g : Genotype) : ℚ :=
  if g.fitness_history.length < 3 then 0
  else
    let recent_avg := (g.fitness_history.reverse.take 3).sum / 3
    let older_avg := (g.fitness_history.take 3).sum / 3
    recent_avg - older_avg

/-! ### Crossover (`Genotype::crossover` and its strategies)

Rust slice indexing `v[i]` panics when `i` is out of bounds; the crossover
strategies that index a parent's vectors directly are therefore embedded in
`Option`, with `none` marking the panic. -/

/-- Checked in-place store, modelling `v[i] = x` (panics out of bounds). -/
def setChecked (l : List ℚ) (i : ℕ) (x : ℚ) : Option (List ℚ) :=
  if i < l.length then some (l.set i x) else none

/-- The ordered pairs `(i, j)`, `i < j`, walked by `symmetric_crossover`. -/
def symPairs (type_count : ℕ) : List (ℕ × ℕ) :=
  (List.range type_count).flatMap (fun i =>
    ((List.range type_count).filter (fun j => i < j)).map (fun j => (i, j)))

/-- Source `Genotype::symmetric_crossover`: per unordered type pair, copy both
directions from one random parent; per diagonal entry, one random parent;
food forces cloned as a block from one random parent. -/
def symmetric_crossover (g other : Genotype) (s : RngState) :
    Genotype × RngState :=
  let step1 := (symPairs g.type_count).foldl
    (fun (acc : Genotype × RngState) ij =>
      let b := random_bool_half acc.2
      let src := if b.1 then g else other
      let ng := (acc.1.set_force ij.1 ij.2 (src.get_force ij.1 ij.2)).set_force
        ij.2 ij.1 (src.get_force ij.2 ij.1)
      (ng, b.2)) (Genotype.new g.type_count, s)
  let step2 := (List.range g.type_count).foldl
    (fun (acc : Genotype × RngState) i =>
      let b := random_bool_half acc.2
      (acc.1.set_force i i ((if b.1 then g else other).get_force i i), b.2))
    step1
  let b := random_bool_half step2.2
  let g3 := { step2.1 with
    food_forces := if b.1 then g.food_forces else other.food_forces }
  ({ g3 with strategy_coherence := g3.calculate_strategy_coherence }, b.2)

/-- Row loop of `Genotype::type_block_crossover`: for each type, all of its
outgoing interactions and its food force come from one random parent.  The
food read `src.food_forces[i]` is a direct index (panic `none`). -/
def type_block_loop (g other : Genotype) :
    List ℕ → Genotype → RngState → Option (Genotype × RngState)
  | [], ng, s => some (ng, s)
  | i :: is, ng, s =>
    let b := random_bool_half s
    let src := if b.1 then g else other
    let ng1 := (List.range g.type_count).foldl
      (fun (acc : Genotype) j => acc.set_force i j (src.get_force i j)) ng
    match src.food_forces[i]? with
    | none => none
    | some v =>
      match setChecked ng1.food_forces i v with
      | none => none
      | some ff => type_block_loop g other is { ng1 with food_forces := ff } b.2

/-- Source `Genotype::type_block_crossover`. -/
def type_block_crossover (g other : Genotype) (s : RngState) :
    Option (Genotype × RngState) :=
  (type_block_loop g other (List.range g.type_count) (Genotype.new g.type_count) s).map
    (fun r => ({ r.1 with strategy_coherence := r.1.calculate_strategy_coherence }, r.2))

/-- Element loop of `Genotype::adaptive_crossover` over a flat vector:
with probability `rate`, overwrite entry `i` with the secondary parent's
entry (both direct indexings, panic `none`). -/
def adaptive_loop (secondary : List ℚ) (rate : ℚ) :
    List ℕ → List ℚ → RngState → Option (List ℚ × RngState)
  | [], v, s => some (v, s)
  | i :: is, v, s =>
    let p := random_f32 s
    if p.1 < rate then
      match secondary[i]? with
      | none => none
      | some x =>
        match setChecked v i x with
        | none => none
        | some v' => adaptive_loop secondary rate is v' p.2
    else adaptive_loop secondary rate is v p.2

/-- Source `Genotype::adaptive_crossover`: clone the more coherent parent, then
stochastically incorporate ~20% of the other parent's force entries and
~10% of its food entries; loop bounds come from the receiver `self`. -/
def adaptive_crossover (g other : Genotype) (s : RngState) :
    Option (Genotype × RngState) :=
  let primary := if other.strategy_coherence < g.strategy_coherence then g else other
  let secondary := if other.strategy_coherence < g.strategy_coherence then other else g
  let incorporation_rate : ℚ := 1/5
  match adaptive_loop secondary.force_matrix incorporation_rate
      (List.range g.force_matrix.length) primary.force_matrix s with
  | none => none
  | some fm =>
    match adaptive_loop secondary.food_forces (incorporation_rate * (1/2))
        (List.range g.food_forces.length) primary.food_forces fm.2 with
    | none => none
    | some ff =>
      let ng := { primary with force_matrix := fm.1, food_forces := ff.1 }
      some ({ ng with strategy_coherence := ng.calculate_strategy_coherence }, ff.2)

/-- Flat-vector loop of `Genotype::uniform_crossover` (legacy strategy,
unreachable from the dispatcher): entry `i` comes from a random parent. -/
def uniform_loop (a b : List ℚ) :
    List ℕ → List ℚ → RngState → Option (List ℚ × RngState)
  | [], v, s => some (v, s)
  | i :: is, v, s =>
    let c := random_bool_half s
    match (if c.1 then a else b)[i]? with
    | none => none
    | some x =>
      match setChecked v i x with
      | none => none
      | some v' => uniform_loop a b is v' c.2

/-- Source `Genotype::uniform_crossover`. -/
def uniform_crossover (g other : Genotype) (s : RngState) :
    Option (Genotype × RngState) :=
  let base := Genotype.new g.type_count
  match uniform_loop g.force_matrix other.force_matrix
      (List.range g.force_matrix.length) base.force_matrix s with
  | none => none
  | some fm =>
    match uniform_loop g.food_forces other.food_forces
        (List.range g.food_forces.length) base.food_forces fm.2 with
    | none => none
    | some ff =>
      let ng := { base with force_matrix := fm.1, food_forces := ff.1 }
      some ({ ng with strategy_coherence := ng.calculate_strategy_coherence }, ff.2)

/-- Source `Genotype::crossover`: strategy dispatch on the parents' coherence
(`SymmetricRelations` / `TypeBlocks` / `AdaptiveHybrid`; `Uniform` is never
selected). -/
def Genotype.crossover (g other : Genotype) (s : RngState) :
    Option (Genotype × RngState) :=
  if 7/10 < g.strategy_coherence ∧ 7/10 < other.strategy_coherence then
    some (symmetric_crossover g other s)
  else if 1/2 < g.strategy_coherence ∨ 1/2 < other.strategy_coherence then
    type_block_crossover g other s
  else
    adaptive_crossover g other s

/-! ## Evolution engine (`src/systems/reset.rs`) -/

/-- Source `ScoredGenome`: a genome with its epoch score and derived metrics. -/
structure ScoredGenome where
  genotype : Genotype
  score : ℚ
  generation : ℕ
  coherence : ℚ
  fitness_trend : ℚ
deriving DecidableEq

/-- Source `EpochStats` (all fields `f32`, `Default` = all zero). -/
structure EpochStats where
  best_score : ℚ
  worst_score : ℚ
  average_score : ℚ
  median_score : ℚ
  std_deviation : ℚ
  improvement : ℚ
  average_coherence : ℚ
  diversity_index : ℚ
deriving DecidableEq

/-- Source `EpochStats::default()`. -/
def EpochStats.zero : EpochStats := ⟨0, 0, 0, 0, 0, 0, 0, 0⟩

/-- Source `GeneticConfig`. -/
structure GeneticConfig where
  elite_ratio : ℚ
  mutation_rate : ℚ
  crossover_rate : ℚ
  coherence_threshold : ℚ
  diversity_pressure : ℚ

/-- Source `GeneticConfig::optimized()`: 30% elites, 15% base mutation, 25%
crossover, coherence threshold 0.3, diversity pressure 0.1. -/
def GeneticConfig.optimized : GeneticConfig := ⟨3/10, 3/20, 1/4, 3/10, 1/10⟩

/-- Checked division, instrumenting the `f32` divisions of the statistics
code: the spec forbids division by zero there, so a zero denominator is
reported as `none`. -/
def div? (a b : ℚ) : Option ℚ := if b = 0 then none else some (a / b)

/-- Source `calculate_combined_fitness`:
`0.6 * normalized_score + 0.3 * coherence_bonus + 0.1 * trend_bonus`, the
score normalization guarded by `best > worst` (else `0.5`) and the
coherence bonus by `coherence > threshold` (else `0`). -/
def calculate_combined_fitness (genome : ScoredGenome) (stats : EpochStats)
    (config : GeneticConfig) : Option ℚ := do
  let normalized_score ←
    if stats.worst_score < stats.best_score then
      div? (genome.score - stats.worst_score) (stats.best_score - stats.worst_score)
    else pure (1/2 : ℚ)
  let coherence_bonus ←
    if config.coherence_threshold < genome.coherence then
      div? (genome.coherence - config.coherence_threshold) (1 - config.coherence_threshold)
    else pure (0 : ℚ)
  let trend_bonus ← div? (max genome.fitness_trend 0) 10
  pure (normalized_score * (6/10) + coherence_bonus * (3/10) + trend_bonus * (1/10))

/-- Squared-difference sum of two flat vectors, walked over the first
vector's indices (`calculate_genetic_distance` loops); a missing entry in
the second vector is an out-of-bounds panic (`none`). -/
def sq_diff_sum : List ℚ → List ℚ → Option ℚ
  | [], _ => some 0
  | _ :: _, [] => none
  | x :: xs, y :: ys => (sq_diff_sum xs ys).map (fun r => (x - y) ^ 2 + r)

/-- Source `calculate_genetic_distance`: Euclidean distance over the concatenated
force matrix and food forces (`sqrtF` standing for `f32::sqrt`). -/
def calculate_genetic_distance (sqrtF : ℚ → ℚ) (genome1 genome2 : Genotype) :
    Option ℚ := do
  let a ← sq_diff_sum genome1.force_matrix genome2.force_matrix
  let b ← sq_diff_sum genome1.food_forces genome2.food_forces
  pure (sqrtF (a + b))

/-- Source `calculate_genetic_diversity`: mean pairwise genetic distance over all
unordered pairs; `0.0` for fewer than two genomes. -/
def calculate_genetic_diversity (sqrtF : ℚ → ℚ) (genomes : List ScoredGenome) :
    Option ℚ :=
  if genomes.length < 2 then some 0
  else do
    let pairs := (List.range genomes.length).flatMap (fun i =>
      ((List.range genomes.length).filter (fun j => i < j)).map (fun j => (i, j)))
    let dists ← pairs.mapM (fun ij => do
      let gi ← genomes[ij.1]?
      let gj ← genomes[ij.2]?
      calculate_genetic_distance sqrtF gi.genotype gj.genotype)
    if 0 < dists.length then div? dists.sum (dists.length : ℚ) else pure 0

/-- Nonempty fold for `Iterator::max_by(partial_cmp)` on values (the copied
maximal value; `unwrap_or(0.0)` on an empty list). -/
def max_score : List ℚ → ℚ
  | [] => 0
  | x :: xs => xs.foldl max x

/-- As `max_score`, for `min_by`. -/
def min_score : List ℚ → ℚ
  | [] => 0
  | x :: xs => xs.foldl min x

/-- Source `calculate_epoch_stats`: population-wide score statistics; empty input
returns the zero default.  Indexing in the median computation is checked,
divisions are instrumented with `div?`. -/
def calculate_epoch_stats (sqrtF : ℚ → ℚ) (scored_genomes : List ScoredGenome)
    (previous : Option EpochStats) : Option EpochStats :=
  if scored_genomes.isEmpty then some EpochStats.zero
  else do
    let scores := scored_genomes.map (·.score)
    let coherences := scored_genomes.map (·.coherence)
    let best := max_score scores
    let worst := min_score scores
    let average ← div? scores.sum (scores.length : ℚ)
    let average_coherence ← div? coherences.sum (coherences.length : ℚ)
    let sorted_scores := scores.mergeSort (fun a b => decide (a ≤ b))
    let median ←
      if sorted_scores.length % 2 = 0 then do
        let a ← sorted_scores[sorted_scores.length / 2 - 1]?
        let b ← sorted_scores[sorted_scores.length / 2]?
        pure ((a + b) / 2)
      else do
        let m ← sorted_scores[sorted_scores.length / 2]?
        pure m
    let variance ← div? ((scores.map (fun x => (x - average) ^ 2)).sum)
      (scores.length : ℚ)
    let std_deviation := sqrtF variance
    let improvement := match previous with
      | some prev => best - prev.best_score
      | none => 0
    let diversity_index ← calculate_genetic_diversity sqrtF scored_genomes
    pure { best_score := best, worst_score := worst, average_score := average,
           median_score := median, std_deviation := std_deviation,
           improvement := improvement, average_coherence := average_coherence,
           diversity_index := diversity_index }

/-! ### Tournament selection -/

/-- The weight vector of `enhanced_tournament_selection`: rank weight
`1/(1 + 0.1 i)` times coherence weight `max(coherence - threshold, 0) + 0.1`
(the rank denominator is at least 1, so plain division is safe). -/
def tournament_weights (population : List ScoredGenome) (config : GeneticConfig) :
    List ℚ :=
  (List.zip (List.range population.length) population).map (fun p =>
    (1 / (1 + (p.1 : ℚ) * (1/10))) *
      (max (p.2.coherence - config.coherence_threshold) 0 + 1/10))

/-- The subtract-and-scan pick of one tournament entrant: walk the weights,
subtracting each from the running random value, picking the first index
where it drops to `≤ 0` (possibly none). -/
def scan_pick : List (ℚ × ScoredGenome) → ℚ → Option ScoredGenome
  | [], _ => none
  | (w, g) :: rest, r =>
    let r' := r - w
    if r' ≤ 0 then some g else scan_pick rest r'

/-- One weighted draw for the tournament: consumes one sample. -/
def pick_one (population : List ScoredGenome) (config : GeneticConfig)
    (s : RngState) : Option ScoredGenome × RngState :=
  let weights := tournament_weights population config
  let total_weight := weights.sum
  let p := random_f32 s
  (scan_pick (List.zip weights population) (p.1 * total_weight), p.2)

/-- The tournament-building loop (`TOURNAMENT_SIZE.min(len)` draws; a draw
that triggers no weight is simply skipped). -/
def tournament_loop (population : List ScoredGenome) (config : GeneticConfig) :
    ℕ → RngState → List ScoredGenome × RngState
  | 0, s => ([], s)
  | n + 1, s =>
    let p := pick_one population config s
    let rest := tournament_loop population config n p.2
    match p.1 with
    | some g => (g :: rest.1, rest.2)
    | none => (rest.1, rest.2)

/-- Source `Iterator::max_by` over the tournament by combined fitness (computed
against default stats), keeping the last of equal maxima. -/
def select_best (config : GeneticConfig) :
    List ScoredGenome → Option (Option ScoredGenome)
  | [] => some none
  | x :: xs =>
    xs.foldlM (fun acc b => do
      let fa ← calculate_combined_fitness acc EpochStats.zero config
      let fb ← calculate_combined_fitness b EpochStats.zero config
      pure (if fa ≤ fb then b else acc)) x |>.map some

/-- Source `enhanced_tournament_selection`: weighted 4-way tournament decided by
combined fitness; the fallback `unwrap_or(population[0].genotype.clone())`
indexes `population[0]` unconditionally, which is an out-of-bounds panic
(`none`) on an empty population. -/
def enhanced_tournament_selection (population : List ScoredGenome)
    (config : GeneticConfig) (s : RngState) : Option (Genotype × RngState) :=
  let t := tournament_loop population config (min 4 population.length) s
  match population with
  | [] => none
  | p0 :: _ => do
    let best ← select_best config t.1
    pure ((best.map (·.genotype)).getD p0.genotype, t.2)

/-- Source `calculate_adaptive_mutation_rate`: base rate scaled by diversity,
stagnation and coherence factors, clamped into `[0.01, 0.5]`. -/
def calculate_adaptive_mutation_rate (stats : EpochStats) (base_rate : ℚ)
    (genome_coherence : ℚ) : ℚ :=
  let diversity_factor : ℚ :=
    if stats.diversity_index < 3/10 then 2
    else if 8/10 < stats.diversity_index then 7/10
    else 1
  let stagnation_factor : ℚ :=
    if stats.improvement ≤ 0 then 3/2
    else if 10 < stats.improvement then 8/10
    else 1
  let coherence_factor : ℚ :=
    if 8/10 < genome_coherence then 1/2
    else if genome_coherence < 4/10 then 9/5
    else 1
  clampQ (base_rate * diversity_factor * stagnation_factor * coherence_factor)
    (1/100) (1/2)

/-! ### Next-generation construction (`generate_improved_population`) -/

/-- The post-crossover validation retries (`max_attempts = 3`): redo the
crossover while the child's coherence is below the threshold. -/
def crossover_retry (p1 p2 : Genotype) (config : GeneticConfig) :
    ℕ → Genotype → RngState → Option (Genotype × RngState)
  | 0, child, s => some (child, s)
  | n + 1, child, s =>
    if config.coherence_threshold ≤ child.strategy_coherence then some (child, s)
    else do
      let c ← p1.crossover p2 s
      crossover_retry p1 p2 config n c.1 c.2

/-- Elite phase: the leading `elite_count.min(len)` genomes survive with a
very light mutation (`rate * 0.1`). -/
def elite_phase (elites : List ScoredGenome) (light_rate : ℚ) (s : RngState) :
    List Genotype × RngState :=
  elites.foldl (fun (acc : List Genotype × RngState) sg =>
    let m := sg.genotype.mutate light_rate acc.2
    (acc.1 ++ [m.1], m.2)) ([], s)

/-- Source `rng.random_range(lo..hi)` for `usize`: panics (`none`) on an empty
range, otherwise lands in `[lo, hi)`. -/
def random_range_nat (lo hi : ℕ) (s : RngState) : Option (ℕ × RngState) :=
  if lo < hi then
    let p := random_f32 s
    some (lo + (Int.toNat ⌊p.1 * ((hi : ℚ) - lo)⌋) % (hi - lo), p.2)
  else none

/-- The reproduction `while` loop of `generate_improved_population`,
embedded with explicit fuel (each real iteration appends exactly one
offspring, so any fuel `≥ target - pop.length` is enough; exhausted fuel is
reported as `none`). -/
def reproduce_loop (scored_genomes : List ScoredGenome) (config : GeneticConfig)
    (stats : EpochStats) (target_size : ℕ) :
    ℕ → List Genotype → RngState → Option (List Genotype × RngState)
  | 0, pop, s => if pop.length < target_size then none else some (pop, s)
  | fuel + 1, pop, s =>
    if target_size ≤ pop.length then some (pop, s)
    else do
      let u := random_f32 s
      let off0 ←
        if u.1 < config.crossover_rate ∧ 2 ≤ scored_genomes.length then do
          let p1 ← enhanced_tournament_selection scored_genomes config u.2
          let p2 ← enhanced_tournament_selection scored_genomes config p1.2
          let c ← p1.1.crossover p2.1 p2.2
          crossover_retry p1.1 p2.1 config 3 c.1 c.2
        else
          enhanced_tournament_selection scored_genomes config u.2
      match off0 with
      | (og, ors) =>
        let adaptive_rate := calculate_adaptive_mutation_rate stats
          config.mutation_rate og.strategy_coherence
        let off := og.mutate adaptive_rate ors
        if config.coherence_threshold ≤ off.1.strategy_coherence ∨
            target_size - 2 ≤ pop.length then
          reproduce_loop scored_genomes config stats target_size fuel
            (pop ++ [off.1]) off.2
        else if pop.length < target_size - 1 then
          match scored_genomes[0]? with
          | none => none
          | some g0 =>
            let rg := Genotype.random g0.genotype.type_count off.2
            reproduce_loop scored_genomes config stats target_size fuel
              (pop ++ [rg.1]) rg.2
        else
          reproduce_loop scored_genomes config stats target_size fuel pop off.2

/-- The diversity-injection loop: replace a random non-elite slot with a
fresh random genome, `diversity_injection` times. -/
def injection_loop (type_count0 diversity_injection elite_count : ℕ) :
    ℕ → List Genotype → RngState → Option (List Genotype × RngState)
  | 0, pop, s => some (pop, s)
  | n + 1, pop, s =>
    if diversity_injection < pop.length then do
      let rg := Genotype.random type_count0 s
      let idx ← random_range_nat elite_count pop.length rg.2
      injection_loop type_count0 diversity_injection elite_count n
        (pop.set idx.1 rg.1) idx.2
    else injection_loop type_count0 diversity_injection elite_count n pop s

/-- Source `generate_improved_population`: extended elitism, validated selective
reproduction, diversity injection, then `truncate(target_size)`. -/
def generate_improved_population (scored_genomes : List ScoredGenome)
    (target_size : ℕ) (config : GeneticConfig) (stats : EpochStats)
    (s : RngState) : Option (List Genotype × RngState) := do
  let elite_count := max ⌈(target_size : ℚ) * config.elite_ratio⌉₊ 1
  let ep := elite_phase (scored_genomes.take (min elite_count scored_genomes.length))
    (config.mutation_rate * (1/10)) s
  let r ← reproduce_loop scored_genomes config stats target_size
    (target_size + 1) ep.1 ep.2
  let final ←
    if stats.diversity_index < 1/2 ∧ 2 < r.1.length then do
      let diversity_injection := Int.toNat ⌊(target_size : ℚ) * (1/10)⌋
      let g0 ← scored_genomes[0]?
      injection_loop g0.genotype.type_count diversity_injection elite_count
        diversity_injection r.1 r.2
    else pure r
  pure (final.1.take target_size, final.2)

/-! ## Population archive (`src/systems/population_save.rs`) -/

/-- Source `SavedGenotype`: the serialized genome fields (`genetic_diversity_score`
is unused by the functions below and omitted). -/
structure SavedGenotype where
  force_matrix : List ℚ
  food_forces : List ℚ
  type_count : ℕ
  fitness_history : List ℚ
  strategy_coherence : ℚ
deriving DecidableEq

/-- Source `SavedPopulation::validate_integrity` (it reads only the genotype):
length checks, per-entry finiteness/range checks (every `ℚ` is finite;
range is `[-3.0, 3.0]`), and the stored coherence must lie in `[0, 1]`. -/
def SavedGenotype.validate_integrity (sp : SavedGenotype) :
    Except String Unit := do
  let expected_matrix_size := sp.type_count * sp.type_count
  if sp.force_matrix.length ≠ expected_matrix_size then
    throw "matrix size mismatch"
  if sp.food_forces.length ≠ sp.type_count then
    throw "food force count mismatch"
  if sp.force_matrix.any (fun force => decide (force < -3 ∨ 3 < force)) then
    throw "force out of range"
  if sp.food_forces.any (fun force => decide (force < -3 ∨ 3 < force)) then
    throw "food force out of range"
  if sp.strategy_coherence < 0 ∨ 1 < sp.strategy_coherence then
    throw "invalid strategy coherence"
  pure ()

/-- The in-memory genotype built by `SavedPopulation::to_bevy_resources`
before its coherence repair. -/
def SavedGenotype.to_genotype (sp : SavedGenotype) : Genotype :=
  { force_matrix := sp.force_matrix
    food_forces := sp.food_forces
    type_count := sp.type_count
    fitness_history := sp.fitness_history
    strategy_coherence := sp.strategy_coherence }

/-- The `Genotype` component of `SavedPopulation::to_bevy_resources` (the
remaining tuple components are engine configuration wiring): the stored
coherence is recomputed exactly when it is `0.0` ("unset"). -/
def SavedGenotype.to_bevy_genotype (sp : SavedGenotype) : Genotype :=
  let genotype := sp.to_genotype
  if genotype.strategy_coherence = 0 then
    { genotype with strategy_coherence := genotype.calculate_strategy_coherence }
  else genotype

/-- The post-validation coherence repair of `load_all_populations`
(applied to each population that passed `validate_integrity`). -/
def SavedGenotype.load_repair (sp : SavedGenotype) : SavedGenotype :=
  if sp.strategy_coherence = 0 then
    { sp with strategy_coherence :=
        ({ sp.to_genotype with strategy_coherence := 0 }
          : Genotype).calculate_strategy_coherence }
  else sp

/-! ## Grid bounds (`src/resources/grid.rs` and the boundary mode) -/

/-- Source `BoundaryMode` (`src/resources/boundary.rs`). -/
inductive BoundaryMode where
  | Bounce
  | Teleport
deriving DecidableEq

/-- A 3-vector of rationals. -/
structure Vec3Q where
  x : ℚ
  y : ℚ
  z : ℚ
deriving DecidableEq

/-- Source `GridParameters`. -/
structure GridParameters where
  width : ℚ
  height : ℚ
  depth : ℚ

/-- Source `PARTICLE_RADIUS` (globals.rs). -/
def PARTICLE_RADIUS_Q : ℚ := 4

/-- Source `COLLISION_DAMPING` (globals.rs). -/
def COLLISION_DAMPING : ℚ := 1/2

/-- Source `f32::signum` (for non-NaN inputs): `1.0` for nonnegative values
(`+0.0` has positive sign), `-1.0` for negative ones. -/
def signumQ (x : ℚ) : ℚ := if x < 0 then -1 else 1

/-- One axis of the Bounce branch of `apply_bounds` (grid.rs): positions
past `half_extent - PARTICLE_RADIUS` are reflected onto the wall and the
axis velocity is negated and damped. -/
def bounce_axis (half_extent p v : ℚ) : ℚ × ℚ :=
  if half_extent - PARTICLE_RADIUS_Q < |p| then
    (signumQ p * (half_extent - PARTICLE_RADIUS_Q), v * -COLLISION_DAMPING)
  else (p, v)

/-- One axis of the toroidal wrap: reduce `p` modulo `extent` into
`[-extent/2, extent/2)`. -/
def wrap_axis (p extent : ℚ) : ℚ :=
  (p + extent / 2) - extent * ⌊(p + extent / 2) / extent⌋ - extent / 2

/-- Modelled from the spec: the three-argument
`GridParameters::apply_bounds(position, velocity, boundary_mode)` called
from `apply_physics_step` (movement.rs:237) is absent from `src/` — grid.rs
holds a superseded two-argument bounce-only revision of the same method.
Its Bounce branch is embedded from grid.rs; its Teleport branch follows the
spec's words: "in toroidal mode, positions exceeding the extent wrap modulo
the domain size" (velocity untouched). -/
def apply_bounds (grid : GridParameters) (position velocity : Vec3Q)
    (mode : BoundaryMode) : Vec3Q × Vec3Q :=
  match mode with
  | .Bounce =>
    let bx := bounce_axis (grid.width / 2) position.x velocity.x
    let by' := bounce_axis (grid.height / 2) position.y velocity.y
    let bz := bounce_axis (grid.depth / 2) position.z velocity.z
    (⟨bx.1, by'.1, bz.1⟩, ⟨bx.2, by'.2, bz.2⟩)
  | .Teleport =>
    (⟨wrap_axis position.x grid.width, wrap_axis position.y grid.height,
      wrap_axis position.z grid.depth⟩, velocity)

/-! ## Torus spatial layer (`src/systems/torus_spatial.rs`)

Entities are modelled as naturals; the Bevy queries (`particles`,
`simulations`) become association lists keyed by entity; the `bevy_spatial`
`KDTree3::within_distance(pos, r)` becomes a list filter by squared
Euclidean distance (equivalent to `distance ≤ r` for `r ≥ 0`).  `f32::sqrt`
in `torus_distance` is an explicit parameter `sqrtF`; every theorem below
holds for all `sqrtF`. -/

/-- Entity ids. -/
abbrev Entity := ℕ

/-- One row of the particle query: entity, translation, particle type, and
the `ChildOf` parent (the owning simulation entity). -/
structure PRow where
  entity : Entity
  translation : Vec3Q
  ptype : ℕ
  parent : Entity
deriving DecidableEq

/-- Squared Euclidean distance. -/
def distSq (a b : Vec3Q) : ℚ :=
  (a.x - b.x) ^ 2 + (a.y - b.y) ^ 2 + (a.z - b.z) ^ 2

/-- Source `KDTree3::within_distance(pos, r)`: all tracked `(position, entity)`
pairs within distance `r` of `pos`. -/
def within_distance (tree : List (Vec3Q × Option Entity)) (pos : Vec3Q)
    (r : ℚ) : List (Vec3Q × Option Entity) :=
  tree.filter (fun e => decide (distSq e.1 pos ≤ r * r))

/-- Source `simulations.get(entity)` on the `&SimulationId` query. -/
def find_sim (sims : List (Entity × ℕ)) (e : Entity) : Option ℕ :=
  (sims.find? (fun s => s.1 = e)).map (·.2)

/-- Source `particles.get(entity)` on the particle query. -/
def find_particle (parts : List PRow) (e : Entity) : Option PRow :=
  parts.find? (fun p => p.entity = e)

/-- The simulation id owning a particle entity: look the particle up, then
its parent's `SimulationId`. -/
def particle_sim (sims : List (Entity × ℕ)) (parts : List PRow) (e : Entity) :
    Option ℕ :=
  (find_particle parts e).bind (fun p => find_sim sims p.parent)

/-- Source `TorusNeighborCache`: cached neighbor triples per `(simulation id,
entity)`, the grid bounds, and the search radius. -/
structure TorusNeighborCache where
  neighbors : List ((ℕ × Entity) × List (Entity × Vec3Q × ℕ))
  grid_bounds : Option (ℚ × ℚ × ℚ)
  max_search_distance : ℚ

/-- Source `HashMap::get` on the neighbor cache. -/
def cache_lookup (cache : List ((ℕ × Entity) × List (Entity × Vec3Q × ℕ)))
    (key : ℕ × Entity) : Option (List (Entity × Vec3Q × ℕ)) :=
  (cache.find? (fun kv => kv.1 = key)).map (·.2)

/-- Source `TorusNeighborCache::torus_distance`: per-axis minimal 1-D torus
distances combined euclideanly; plain Euclidean distance without grid
bounds. -/
def torus_distance (sqrtF : ℚ → ℚ) (bounds : Option (ℚ × ℚ × ℚ))
    (pos1 pos2 : Vec3Q) : ℚ :=
  match bounds with
  | none => sqrtF (distSq pos1 pos2)
  | some (width, height, depth) =>
    let dx := |pos2.x - pos1.x|
    let min_dx := min dx (width - dx)
    let dy := |pos2.y - pos1.y|
    let min_dy := min dy (height - dy)
    let dz := |pos2.z - pos1.z|
    let min_dz := min dz (depth - dz)
    sqrtF (min_dx ^ 2 + min_dy ^ 2 + min_dz ^ 2)

/-- Source `TorusNeighborCache::torus_direction_vector`: shortest signed per-axis
displacement on the torus (`to - from` without grid bounds). -/
def torus_direction_vector (bounds : Option (ℚ × ℚ × ℚ))
    (fromv tov : Vec3Q) : Vec3Q :=
  match bounds with
  | none => ⟨tov.x - fromv.x, tov.y - fromv.y, tov.z - fromv.z⟩
  | some (width, height, depth) =>
    let dx := tov.x - fromv.x
    let rx := if |dx| ≤ width / 2 then dx
      else if 0 < dx then dx - width else dx + width
    let dy := tov.y - fromv.y
    let ry := if |dy| ≤ height / 2 then dy
      else if 0 < dy then dy - height else dy + height
    let dz := tov.z - fromv.z
    let rz := if |dz| ≤ depth / 2 then dz
      else if 0 < dz then dz - depth else dz + depth
    ⟨rx, ry, rz⟩

/-- Source `TorusNeighborCache::generate_torus_positions`: the particle plus its
26 mirror images (all `-1/0/+1` domain-size offsets per axis). -/
def generate_torus_positions (bounds : Option (ℚ × ℚ × ℚ)) (position : Vec3Q) :
    List Vec3Q :=
  match bounds with
  | none => [position]
  | some (width, height, depth) =>
    ([-1, 0, 1] : List ℚ).flatMap (fun xo =>
      ([-1, 0, 1] : List ℚ).flatMap (fun yo =>
        ([-1, 0, 1] : List ℚ).map (fun zo =>
          (⟨position.x + xo * width, position.y + yo * height,
            position.z + zo * depth⟩ : Vec3Q))))

/-- The neighbor list `update_torus_cache` builds for one particle: probe
the tree from every ghost position, skip entries without an entity, skip
the particle itself, skip particles of other simulations, keep entries
within true torus distance, deduplicating by entity. -/
def cache_neighbors_for (sqrtF : ℚ → ℚ) (bounds : Option (ℚ × ℚ × ℚ))
    (max_search_radius : ℚ) (tree : List (Vec3Q × Option Entity))
    (sims : List (Entity × ℕ)) (parts : List PRow)
    (entity : Entity) (position : Vec3Q) (sim_id : ℕ) :
    List (Entity × Vec3Q × ℕ) :=
  (generate_torus_positions bounds position).foldl (fun acc ghost_pos =>
    (within_distance tree ghost_pos max_search_radius).foldl (fun acc2 item =>
      match item.2 with
      | none => acc2
      | some neighbor_entity =>
        if neighbor_entity = entity then acc2
        else
          match find_particle parts neighbor_entity with
          | none => acc2
          | some np =>
            match find_sim sims np.parent with
            | none => acc2
            | some neighbor_sim_id =>
              if neighbor_sim_id ≠ sim_id then acc2
              else if torus_distance sqrtF bounds position np.translation ≤
                    max_search_radius ∧
                  ¬ acc2.any (fun t => t.1 = neighbor_entity) then
                acc2 ++ [(neighbor_entity, np.translation, np.ptype)]
              else acc2) acc) []

/-- Source `update_torus_cache` (after the grid-bounds refresh): in Bounce mode the
cache is cleared; in Teleport mode it is rebuilt, one entry per particle
whose owning simulation resolves. -/
def update_torus_cache (sqrtF : ℚ → ℚ) (cache : TorusNeighborCache)
    (mode : BoundaryMode) (tree : List (Vec3Q × Option Entity))
    (sims : List (Entity × ℕ)) (parts : List PRow) : TorusNeighborCache :=
  match mode with
  | .Bounce => { cache with neighbors := [] }
  | .Teleport =>
    { cache with neighbors := parts.filterMap (fun p =>
        (find_sim sims p.parent).map (fun sim_id =>
          ((sim_id, p.entity),
            cache_neighbors_for sqrtF cache.grid_bounds
              cache.max_search_distance tree sims parts
              p.entity p.translation sim_id))) }

/-- The raw-tree fallback search shared by the Bounce branch and the
Teleport cache miss of `get_torus_neighbors`: entries with an entity other
than the querier, with a placeholder type `0`. -/
def tree_fallback_neighbors (tree : List (Vec3Q × Option Entity))
    (entity : Entity) (position : Vec3Q) (max_distance : ℚ) :
    List (Entity × Vec3Q × ℕ) :=
  (within_distance tree position max_distance).filterMap (fun item =>
    match item.2 with
    | some ent => if ent ≠ entity then some (ent, item.1, 0) else none
    | none => none)

/-- Source `get_torus_neighbors`: Teleport serves the cached triples when present
and falls back to a raw tree search otherwise; Bounce always searches the
raw tree. -/
def get_torus_neighbors (cache : TorusNeighborCache)
    (tree : List (Vec3Q × Option Entity)) (sim_id : ℕ) (entity : Entity)
    (position : Vec3Q) (max_distance : ℚ) (boundary_mode : BoundaryMode) :
    List (Entity × Vec3Q × ℕ) :=
  match boundary_mode with
  | .Teleport =>
    match cache_lookup cache.neighbors (sim_id, entity) with
    | some cached_neighbors => cached_neighbors
    | none => tree_fallback_neighbors tree entity position max_distance
  | .Bounce => tree_fallback_neighbors tree entity position max_distance

/-! ## Force law (`src/systems/movement.rs`), over `ℝ`

`calculate_acceleration` divides by `Vec3::length`, an honest square root,
so this one function is embedded over the reals. -/

/-- A 3-vector of reals. -/
structure Vec3R where
  x : ℝ
  y : ℝ
  z : ℝ

/-- Source `Vec3::ZERO`. -/
def Vec3R.zero : Vec3R := ⟨0, 0, 0⟩

/-- Dot product. -/
def Vec3R.dot (a b : Vec3R) : ℝ := a.x * b.x + a.y * b.y + a.z * b.z

/-- Source `Vec3::length`: `sqrt (dot self self)`. -/
noncomputable def Vec3R.length (v : Vec3R) : ℝ := Real.sqrt (v.dot v)

/-- Scalar multiple. -/
def Vec3R.smul (c : ℝ) (v : Vec3R) : Vec3R := ⟨c * v.x, c * v.y, c * v.z⟩

/-- Source `PARTICLE_RADIUS` as a real. -/
def PARTICLE_RADIUS_R : ℝ := 4

/-- The minimum-separation radius used at movement.rs:159:
`type_count as f32 * PARTICLE_RADIUS`. -/
def min_r_of (type_count : ℕ) : ℝ := type_count * PARTICLE_RADIUS_R

/-- Source `calculate_acceleration` (movement.rs:242, identical to the GPU
shader): zero under the `0.001` distance guard, otherwise the two-regime
radial law on normalized distances, returned along `relative_pos`. -/
noncomputable def calculate_acceleration (min_r : ℝ) (relative_pos : Vec3R)
    (attraction max_force_range : ℝ) : Vec3R :=
  let dist := relative_pos.length
  if dist < 1/1000 then Vec3R.zero
  else
    let normalized_pos := Vec3R.smul (1 / max_force_range) relative_pos
    let normalized_dist := dist / max_force_range
    let min_r_normalized := min_r / max_force_range
    let force :=
      if normalized_dist < min_r_normalized then
        normalized_dist / min_r_normalized - 1
      else
        attraction *
          (1 - |1 + min_r_normalized - 2 * normalized_dist| / (1 - min_r_normalized))
    Vec3R.smul (force / normalized_dist) normalized_pos

/-- The force magnitude exactly as the claim states it, in unnormalized
distances: `dist/min_r - 1` inside `min_r`, otherwise
`attraction * (1 - |1 + min_r_norm - 2*dist_norm| / (1 - min_r_norm))`
with distances normalized by `max_force_range`. -/
noncomputable def claimed_force_magnitude (min_r dist attraction
    max_force_range : ℝ) : ℝ :=
  if dist < min_r then dist / min_r - 1
  else
    attraction *
      (1 - |1 + min_r / max_force_range - 2 * (dist / max_force_range)| /
        (1 - min_r / max_force_range))

/-! ## Concrete witness data -/

/-- The decode-range invariant: every stored force lies in `[-2, 2]`. -/
def Genotype.InRange2 (g : Genotype) : Prop :=
  (∀ x ∈ g.force_matrix, -2 ≤ x ∧ x ≤ 2) ∧
    (∀ x ∈ g.food_forces, -2 ≤ x ∧ x ≤ 2)

instance (g : Genotype) : Decidable g.InRange2 := by
  unfold Genotype.InRange2; infer_instance

/-- A concrete RNG stream (all samples `0`). -/
def s0 : RngState := ⟨fun _ => 0, 0⟩

/-- The concrete crossover result used by the decode-range witness. -/
def cxw : Genotype × RngState :=
  ((Genotype.new 1).crossover (Genotype.new 1) s0).getD (Genotype.new 1, s0)

/-- A saved genotype refuting C7: a single force entry `2.5` is accepted by
`validate_integrity` (whose range check is `[-3, 3]`) yet decodes above the
claimed `[-2, 2]` bound. -/
def spBad : SavedGenotype := ⟨[5/2], [0], 1, [], 1/2⟩

/-! ## Basic lemmas -/

theorem clampQ_le (x lo hi : ℚ) : clampQ x lo hi ≤ hi := min_le_right _ _

theorem le_clampQ (x lo hi : ℚ) (h : lo ≤ hi) : lo ≤ clampQ x lo hi :=
  le_min (le_max_right _ _) h

theorem clampQ_mem (x lo hi : ℚ) (h : lo ≤ hi) :
    lo ≤ clampQ x lo hi ∧ clampQ x lo hi ≤ hi :=
  ⟨le_clampQ x lo hi h, clampQ_le x lo hi⟩

theorem RngState.InUnit.next {s : RngState} (h : s.InUnit) :
    s.next.2.InUnit := h

theorem RngState.InUnit.sample {s : RngState} (h : s.InUnit) :
    0 ≤ s.next.1 ∧ s.next.1 ≤ 1 := h s.i

theorem random_range_mem (lo hi : ℚ) (s : RngState) (hlo : lo ≤ hi)
    (h : s.InUnit) :
    lo ≤ (random_range lo hi s).1 ∧ (random_range lo hi s).1 ≤ hi := by
  obtain ⟨h0, h1⟩ := h.sample
  constructor
  · have : 0 ≤ (hi - lo) * s.next.1 :=
      mul_nonneg (by linarith) h0
    simp only [random_range]
    linarith
  · have : (hi - lo) * s.next.1 ≤ (hi - lo) * 1 :=
      mul_le_mul_of_nonneg_left h1 (by linarith)
    simp only [random_range]
    linarith

/-! ## C2: out-of-range force decoding -/

/-- C2 counterexample: a genome satisfying the length invariant for which
`get_force(0, 2)` with `type_b = 2 ≥ type_count = 2` returns `1 ≠ 0`:
the flat index `2` is still inside the matrix and aliases entry `(1,0)`. -/
theorem get_force_out_of_range_not_zero :
    g2cx.GoodLengths ∧ 2 ≥ g2cx.type_count ∧ g2cx.get_force 0 2 = 1 ∧
      (1 : ℚ) ≠ 0 := by
  refine ⟨⟨rfl, rfl⟩, le_refl 2, rfl, by norm_num⟩

/-- C2 (amended): under the length invariant, `get_force` returns `0.0`
whenever the flat index `type_a*type_count + type_b` is at least
`type_count²` — in particular whenever `type_a ≥ type_count` — and
`get_food_force` returns `0.0` for every type index `≥ type_count`.
(For `type_a < type_count` but `type_b ≥ type_count` the flat index can
stay inside the matrix and alias another entry; see the counterexample.) -/
theorem get_force_out_of_bounds_zero (g : Genotype) (h : g.GoodLengths) :
    (∀ type_a type_b, g.type_count * g.type_count ≤ type_a * g.type_count + type_b →
      g.get_force type_a type_b = 0) ∧
    (∀ type_a type_b, g.type_count ≤ type_a →
      g.get_force type_a type_b = 0) ∧
    (∀ t, g.type_count ≤ t → g.get_food_force t = 0) := by
  obtain ⟨hm, hf⟩ := h
  have key : ∀ type_a type_b, g.type_count * g.type_count ≤ type_a * g.type_count + type_b →
      g.get_force type_a type_b = 0 := by
    intro a b hab
    unfold Genotype.get_force
    rw [List.getElem?_eq_none (by omega)]
    rfl
  refine ⟨key, ?_, ?_⟩
  · intro a b ha
    exact key a b (by calc
      g.type_count * g.type_count ≤ a * g.type_count := by
        exact Nat.mul_le_mul_right _ ha
      _ ≤ a * g.type_count + b := Nat.le_add_right _ _)
  · intro t ht
    unfold Genotype.get_food_force
    rw [List.getElem?_eq_none (by omega)]
    rfl

/-- Witness for the amended C2, on the concrete genome `g2cx`. -/
theorem get_force_out_of_bounds_zero_witness :
    g2cx.GoodLengths ∧ g2cx.get_force 2 1 = 0 ∧ g2cx.get_food_force 2 = 0 := by
  have h : g2cx.GoodLengths := ⟨rfl, rfl⟩
  exact ⟨h, (get_force_out_of_bounds_zero g2cx h).2.1 2 1 (by decide),
    (get_force_out_of_bounds_zero g2cx h).2.2 2 (by decide)⟩

/-! ## C8: coherence bounds -/

/-- C8: for every genome satisfying the length invariant (including the
degenerate `type_count = 1`, where no ordered pair or triple exists),
`calculate_strategy_coherence` lies in `[0, 1]`: the final score is clamped
into `[0,1]`, and the pairless branch returns `0.5`. -/
theorem calculate_strategy_coherence_mem (g : Genotype) (h : g.GoodLengths) :
    0 ≤ g.calculate_strategy_coherence ∧ g.calculate_strategy_coherence ≤ 1 := by
  unfold Genotype.calculate_strategy_coherence
  exact clampQ_mem _ 0 1 (by norm_num)

/-- Witness for C8 at the degenerate `type_count = 1` genome. -/
theorem calculate_strategy_coherence_mem_witness :
    (Genotype.new 1).GoodLengths ∧
      0 ≤ (Genotype.new 1).calculate_strategy_coherence ∧
      (Genotype.new 1).calculate_strategy_coherence ≤ 1 :=
  ⟨by decide, calculate_strategy_coherence_mem (Genotype.new 1) (by decide)⟩

/-! ## C10: adaptive mutation rate bounds -/

/-- C10: for every epoch statistics record, base rate and genome coherence,
`calculate_adaptive_mutation_rate` lies in `[0.01, 0.5]` (the product of
the three factors is clamped into that interval). -/
theorem calculate_adaptive_mutation_rate_mem (stats : EpochStats)
    (base_rate genome_coherence : ℚ) :
    1/100 ≤ calculate_adaptive_mutation_rate stats base_rate genome_coherence ∧
      calculate_adaptive_mutation_rate stats base_rate genome_coherence ≤ 1/2 := by
  unfold calculate_adaptive_mutation_rate
  exact clampQ_mem _ (1/100) (1/2) (by norm_num)

/-! ## C9: load-time coherence recompute -/

/-- Source `calculate_strategy_coherence` only reads the force matrix, the food
forces and the type count. -/
theorem calculate_strategy_coherence_congr (g1 g2 : Genotype)
    (hm : g1.force_matrix = g2.force_matrix)
    (hf : g1.food_forces = g2.food_forces)
    (ht : g1.type_count = g2.type_count) :
    g1.calculate_strategy_coherence = g2.calculate_strategy_coherence := by
  unfold Genotype.calculate_strategy_coherence Genotype.check_oscillation_risk
    Genotype.get_force
  rw [hm, hf, ht]

/-- C9: for every saved genotype that passes `validate_integrity`, both the
genotype produced by `to_bevy_resources` and the one repaired by
`load_all_populations` carry `calculate_strategy_coherence` of the stored
forces when the stored coherence is exactly `0.0`, and the stored value
otherwise; the force data itself is loaded unchanged. -/
theorem load_time_coherence_recompute (sp : SavedGenotype)
    (hv : sp.validate_integrity = Except.ok ()) :
    (sp.to_bevy_genotype.strategy_coherence =
      if sp.strategy_coherence = 0 then
        sp.to_genotype.calculate_strategy_coherence
      else sp.strategy_coherence) ∧
    sp.to_bevy_genotype.force_matrix = sp.force_matrix ∧
    sp.to_bevy_genotype.food_forces = sp.food_forces ∧
    ((sp.load_repair).strategy_coherence =
      if sp.strategy_coherence = 0 then
        sp.to_genotype.calculate_strategy_coherence
      else sp.strategy_coherence) := by
  refine ⟨?_, ?_, ?_, ?_⟩
  · unfold SavedGenotype.to_bevy_genotype
    by_cases h : sp.strategy_coherence = 0 <;>
      simp [SavedGenotype.to_genotype, h]
  · unfold SavedGenotype.to_bevy_genotype
    by_cases h : sp.strategy_coherence = 0 <;>
      simp [SavedGenotype.to_genotype, h]
  · unfold SavedGenotype.to_bevy_genotype
    by_cases h : sp.strategy_coherence = 0 <;>
      simp [SavedGenotype.to_genotype, h]
  · unfold SavedGenotype.load_repair
    by_cases h : sp.strategy_coherence = 0
    · simp only [h, if_true, if_pos]
      exact calculate_strategy_coherence_congr _ _ rfl rfl rfl
    · simp [h]

/-- Witness for C9: a concrete valid saved genotype with stored coherence
`0.0`, whose loaded coherence is the recomputed one. -/
theorem load_time_coherence_recompute_witness :
    (SavedGenotype.validate_integrity
        ⟨[-1/2], [1/2], 1, [], 0⟩ = Except.ok ()) ∧
      ((⟨[-1/2], [1/2], 1, [], 0⟩ : SavedGenotype).to_bevy_genotype.strategy_coherence =
        if (0 : ℚ) = 0 then
          (⟨[-1/2], [1/2], 1, [], 0⟩ : SavedGenotype).to_genotype.calculate_strategy_coherence
        else 0) := by
  have hv : SavedGenotype.validate_integrity
      ⟨[-1/2], [1/2], 1, [], 0⟩ = Except.ok () := by
    unfold SavedGenotype.validate_integrity
    norm_num
    rfl
  exact ⟨hv, (load_time_coherence_recompute ⟨[-1/2], [1/2], 1, [], 0⟩ hv).1⟩

/-! ## C4: toroidal wrap -/

theorem wrap_axis_mem (p e : ℚ) (he : 0 < e) :
    -(e/2) ≤ wrap_axis p e ∧ wrap_axis p e < e/2 := by
  unfold wrap_axis
  have h1 := Int.sub_floor_div_mul_nonneg (p + e/2) he
  have h2 := Int.sub_floor_div_mul_lt (p + e/2) he
  have hc : e * (⌊(p + e/2) / e⌋ : ℚ) = (⌊(p + e/2) / e⌋ : ℚ) * e :=
    mul_comm _ _
  exact ⟨by linarith, by linarith⟩

/-- C4: in Teleport mode the boundary step wraps each axis modulo the
domain size — for every position (in particular one exceeding the extent),
one application lands in `[-extent/2, extent/2)` on every axis — and the
velocity is returned untouched (no reflection, no damped negation). -/
theorem apply_bounds_teleport_wraps (grid : GridParameters)
    (position velocity : Vec3Q) (hw : 0 < grid.width) (hh : 0 < grid.height)
    (hd : 0 < grid.depth) :
    (-(grid.width/2) ≤ (apply_bounds grid position velocity .Teleport).1.x ∧
      (apply_bounds grid position velocity .Teleport).1.x < grid.width/2) ∧
    (-(grid.height/2) ≤ (apply_bounds grid position velocity .Teleport).1.y ∧
      (apply_bounds grid position velocity .Teleport).1.y < grid.height/2) ∧
    (-(grid.depth/2) ≤ (apply_bounds grid position velocity .Teleport).1.z ∧
      (apply_bounds grid position velocity .Teleport).1.z < grid.depth/2) ∧
    (apply_bounds grid position velocity .Teleport).2 = velocity := by
  refine ⟨?_, ?_, ?_, rfl⟩
  · exact wrap_axis_mem position.x grid.width hw
  · exact wrap_axis_mem position.y grid.height hh
  · exact wrap_axis_mem position.z grid.depth hd

/-- Witness for C4: the default `800³` grid, a position exceeding the
extent on two axes. -/
theorem apply_bounds_teleport_wraps_witness :
    (0 : ℚ) < 800 ∧
    (-(800/2 : ℚ) ≤ (apply_bounds ⟨800, 800, 800⟩ ⟨900, -1000, 0⟩ ⟨1, 2, 3⟩
        .Teleport).1.x ∧
      (apply_bounds ⟨800, 800, 800⟩ ⟨900, -1000, 0⟩ ⟨1, 2, 3⟩
        .Teleport).1.x < 800/2) ∧
    (apply_bounds ⟨800, 800, 800⟩ ⟨900, -1000, 0⟩ ⟨1, 2, 3⟩ .Teleport).2 =
      ⟨1, 2, 3⟩ := by
  have h := apply_bounds_teleport_wraps ⟨800, 800, 800⟩ ⟨900, -1000, 0⟩
    ⟨1, 2, 3⟩ (by norm_num) (by norm_num) (by norm_num)
  exact ⟨by norm_num, h.1, h.2.2.2⟩

/-! ## C7: decode range -/

/-- C7 counterexample: the saved genotype `spBad` (one force entry `2.5`)
passes `validate_integrity`, yet the loaded genome decodes `2.5 > 2`. -/
theorem load_validated_genome_exceeds_decode_range :
    spBad.validate_integrity = Except.ok () ∧
      spBad.to_bevy_genotype.get_force 0 0 = 5/2 ∧
      ¬ spBad.to_bevy_genotype.get_force 0 0 ≤ 2 := by
  have hb : spBad.to_bevy_genotype = spBad.to_genotype := by
    unfold SavedGenotype.to_bevy_genotype
    rw [if_neg]
    norm_num [SavedGenotype.to_genotype, spBad]
  have hg : spBad.to_bevy_genotype.get_force 0 0 = 5/2 := by
    rw [hb]
    simp [Genotype.get_force, SavedGenotype.to_genotype, spBad]
  refine ⟨?_, hg, by rw [hg]; norm_num⟩
  unfold SavedGenotype.validate_integrity
  simp only [spBad]
  norm_num
  rfl

theorem foldl_preserve {α β : Type} (P : β → Prop) (step : β → α → β)
    (h : ∀ acc a, P acc → P (step acc a)) :
    ∀ (l : List α) (init : β), P init → P (l.foldl step init) := by
  intro l
  induction l with
  | nil => intro init h0; exact h0
  | cons a l ih => intro init h0; exact ih (step init a) (h init a h0)

theorem get_force_range (g : Genotype) (h : g.InRange2) (a b : ℕ) :
    -2 ≤ g.get_force a b ∧ g.get_force a b ≤ 2 := by
  unfold Genotype.get_force
  rcases hx : g.force_matrix[a * g.type_count + b]? with _ | v
  · simp
  · simpa using h.1 v (List.getElem?_mem hx)

theorem get_food_force_range (g : Genotype) (h : g.InRange2) (a : ℕ) :
    -2 ≤ g.get_food_force a ∧ g.get_food_force a ≤ 2 := by
  unfold Genotype.get_food_force
  rcases hx : g.food_forces[a]? with _ | v
  · simp
  · simpa using h.2 v (List.getElem?_mem hx)

theorem new_InRange2 (type_count : ℕ) : (Genotype.new type_count).InRange2 := by
  constructor
  · intro x hx
    have hx' : x ∈ List.replicate (type_count * type_count) (0 : ℚ) := hx
    rw [List.eq_of_mem_replicate hx']
    norm_num
  · intro x hx
    have hx' : x ∈ List.replicate type_count (0 : ℚ) := hx
    rw [List.eq_of_mem_replicate hx']
    norm_num

theorem set_force_InRange2 {g : Genotype} (h : g.InRange2) (a b : ℕ) {v : ℚ}
    (hv : -2 ≤ v ∧ v ≤ 2) : (g.set_force a b v).InRange2 := by
  simp only [Genotype.set_force]
  split
  · refine ⟨?_, h.2⟩
    intro x hx
    rcases List.mem_or_eq_of_mem_set hx with hmem | rfl
    · exact h.1 x hmem
    · exact hv
  · exact h

theorem mutate_forces_range (effective_rate amp : ℚ) :
    ∀ (l : List ℚ) (s : RngState), (∀ x ∈ l, -2 ≤ x ∧ x ≤ 2) →
      ∀ x ∈ (mutate_forces effective_rate amp l s).1, -2 ≤ x ∧ x ≤ 2 := by
  intro l
  induction l with
  | nil => intro s h x hx; simp [mutate_forces] at hx
  | cons a l ih =>
    intro s h x hx
    rw [mutate_forces] at hx
    simp only [List.mem_cons] at hx
    rcases hx with rfl | hx
    · split
      · exact clampQ_mem _ (-2) 2 (by norm_num)
      · exact h a (List.mem_cons_self a l)
    · exact ih _ (fun y hy => h y (List.mem_cons_of_mem a hy)) x hx

theorem mutate_food_range (effective_rate amp : ℚ) :
    ∀ (l : List ℚ) (s : RngState), (∀ x ∈ l, -2 ≤ x ∧ x ≤ 2) →
      ∀ x ∈ (mutate_food effective_rate amp l s).1, -2 ≤ x ∧ x ≤ 2 := by
  intro l
  induction l with
  | nil => intro s h x hx; simp [mutate_food] at hx
  | cons a l ih =>
    intro s h x hx
    rw [mutate_food] at hx
    simp only [List.mem_cons] at hx
    rcases hx with rfl | hx
    · split
      · exact clampQ_mem _ (-2) 2 (by norm_num)
      · exact h a (List.mem_cons_self a l)
    · exact ih _ (fun y hy => h y (List.mem_cons_of_mem a hy)) x hx

theorem mutate_InRange2 (g : Genotype) (rate : ℚ) (s : RngState)
    (h : g.InRange2) : (g.mutate rate s).1.InRange2 := by
  unfold Genotype.mutate
  exact ⟨mutate_forces_range _ _ g.force_matrix s h.1,
    mutate_food_range _ _ g.food_forces _ h.2⟩

theorem InRange2_of_fields (g g' : Genotype)
    (hm : g'.force_matrix = g.force_matrix)
    (hf : g'.food_forces = g.food_forces) (h : g.InRange2) : g'.InRange2 := by
  unfold Genotype.InRange2
  rw [hm, hf]
  exact h

theorem set_force_food (g : Genotype) (a b : ℕ) (v : ℚ) :
    (g.set_force a b v).food_forces = g.food_forces := by
  simp only [Genotype.set_force]
  split <;> rfl

theorem set_force_type_count (g : Genotype) (a b : ℕ) (v : ℚ) :
    (g.set_force a b v).type_count = g.type_count := by
  simp only [Genotype.set_force]
  split <;> rfl

theorem set_force_fm_length (g : Genotype) (a b : ℕ) (v : ℚ) :
    (g.set_force a b v).force_matrix.length = g.force_matrix.length := by
  simp only [Genotype.set_force]
  split
  · exact List.length_set ..
  · rfl

/-- The inner row-copy fold of `type_block_crossover` (also used by
`symmetric_crossover`'s shape of reasoning): `set_force` steps preserve the
food vector, the type count, the matrix length, and the range invariant
when both parents are in range. -/
theorem fold_set_force_props (g other : Genotype) (i : ℕ) (ng : Genotype)
    (bsel : Bool) (hg : g.InRange2) (ho : other.InRange2) (hng : ng.InRange2) :
    ((List.range g.type_count).foldl
      (fun (acc : Genotype) j =>
        acc.set_force i j ((if bsel then g else other).get_force i j)) ng).InRange2 ∧
    ((List.range g.type_count).foldl
      (fun (acc : Genotype) j =>
        acc.set_force i j ((if bsel then g else other).get_force i j)) ng).food_forces =
      ng.food_forces ∧
    ((List.range g.type_count).foldl
      (fun (acc : Genotype) j =>
        acc.set_force i j ((if bsel then g else other).get_force i j)) ng).type_count =
      ng.type_count := by
  have hsrc : (if bsel then g else other).InRange2 := by
    cases bsel
    · exact ho
    · exact hg
  have := foldl_preserve
    (fun (acc : Genotype) => acc.InRange2 ∧ acc.food_forces = ng.food_forces ∧
      acc.type_count = ng.type_count)
    (fun (acc : Genotype) j =>
      acc.set_force i j ((if bsel then g else other).get_force i j))
    (fun acc j hacc =>
      ⟨set_force_InRange2 hacc.1 i j (get_force_range _ hsrc i j),
        (set_force_food ..).trans hacc.2.1,
        (set_force_type_count ..).trans hacc.2.2⟩)
    (List.range g.type_count) ng ⟨hng, rfl, rfl⟩
  exact this

theorem symmetric_crossover_InRange2 (g other : Genotype) (s : RngState)
    (hg : g.InRange2) (ho : other.InRange2) :
    (symmetric_crossover g other s).1.InRange2 := by
  have hsrc : ∀ (b : Bool), (if b then g else other).InRange2 := by
    intro b
    cases b
    · exact ho
    · exact hg
  simp only [symmetric_crossover]
  apply InRange2_of_fields _ _ rfl rfl
  have h1 : ((symPairs g.type_count).foldl
      (fun (acc : Genotype × RngState) ij =>
        let b := random_bool_half acc.2
        let src := if b.1 then g else other
        let ng := (acc.1.set_force ij.1 ij.2 (src.get_force ij.1 ij.2)).set_force
          ij.2 ij.1 (src.get_force ij.2 ij.1)
        (ng, b.2)) (Genotype.new g.type_count, s)).1.InRange2 := by
    apply foldl_preserve (fun (acc : Genotype × RngState) => acc.1.InRange2)
    · intro acc ij hacc
      exact set_force_InRange2
        (set_force_InRange2 hacc ij.1 ij.2 (get_force_range _ (hsrc _) ij.1 ij.2))
        ij.2 ij.1 (get_force_range _ (hsrc _) ij.2 ij.1)
    · exact new_InRange2 g.type_count
  have h2 : (((List.range g.type_count).foldl
      (fun (acc : Genotype × RngState) i =>
        let b := random_bool_half acc.2
        (acc.1.set_force i i ((if b.1 then g else other).get_force i i), b.2))
      ((symPairs g.type_count).foldl
        (fun (acc : Genotype × RngState) ij =>
          let b := random_bool_half acc.2
          let src := if b.1 then g else other
          let ng := (acc.1.set_force ij.1 ij.2 (src.get_force ij.1 ij.2)).set_force
            ij.2 ij.1 (src.get_force ij.2 ij.1)
          (ng, b.2)) (Genotype.new g.type_count, s))).1).InRange2 := by
    apply foldl_preserve (fun (acc : Genotype × RngState) => acc.1.InRange2)
    · intro acc i hacc
      exact set_force_InRange2 hacc i i (get_force_range _ (hsrc _) i i)
    · exact h1
  refine ⟨h2.1, ?_⟩
  split
  · exact hg.2
  · exact ho.2

theorem type_block_loop_InRange2 (g other : Genotype)
    (hg : g.InRange2) (ho : other.InRange2) :
    ∀ (is : List ℕ) (ng : Genotype) (s : RngState), ng.InRange2 →
      ∀ r, type_block_loop g other is ng s = some r → r.1.InRange2 := by
  intro is
  induction is with
  | nil =>
    intro ng s hng r hr
    rw [type_block_loop] at hr
    exact (Option.some_inj.mp hr) ▸ hng
  | cons i is ih =>
    intro ng s hng r hr
    rw [type_block_loop] at hr
    set src := if (random_bool_half s).1 then g else other with hsrc_def
    have hsrc : src.InRange2 := by
      rw [hsrc_def]
      cases (random_bool_half s).1
      · exact ho
      · exact hg
    have hfold := fold_set_force_props g other i ng (random_bool_half s).1 hg ho hng
    set ng1 := (List.range g.type_count).foldl
      (fun (acc : Genotype) j => acc.set_force i j (src.get_force i j)) ng with hng1
    rcases hv : src.food_forces[i]? with _ | v
    · simp only [hv] at hr
      exact Option.noConfusion hr
    · simp only [hv] at hr
      have hvr : -2 ≤ v ∧ v ≤ 2 := hsrc.2 v (List.getElem?_mem hv)
      rcases hset : setChecked ng1.food_forces i v with _ | ff
      · simp only [hset] at hr
        exact Option.noConfusion hr
      · simp only [hset] at hr
        refine ih { ng1 with food_forces := ff } _ ?_ r hr
        have hffmem : ∀ x ∈ ff, -2 ≤ x ∧ x ≤ 2 := by
          unfold setChecked at hset
          split at hset
          · cases Option.some_inj.mp hset
            intro x hx
            rcases List.mem_or_eq_of_mem_set hx with hmem | rfl
            · exact hfold.1.2 x hmem
            · exact hvr
          · exact absurd hset (by simp)
        exact ⟨hfold.1.1, hffmem⟩

theorem type_block_crossover_InRange2 (g other : Genotype) (s : RngState)
    (hg : g.InRange2) (ho : other.InRange2) (r : Genotype × RngState)
    (hr : type_block_crossover g other s = some r) : r.1.InRange2 := by
  unfold type_block_crossover at hr
  rcases Option.map_eq_some'.mp hr with ⟨a, ha, rfl⟩
  exact InRange2_of_fields _ _ rfl rfl
    (type_block_loop_InRange2 g other hg ho _ _ _ (new_InRange2 _) a ha)

theorem adaptive_loop_range (secondary : List ℚ) (rate : ℚ)
    (hsec : ∀ x ∈ secondary, -2 ≤ x ∧ x ≤ 2) :
    ∀ (is : List ℕ) (v : List ℚ) (s : RngState),
      (∀ x ∈ v, -2 ≤ x ∧ x ≤ 2) →
      ∀ r, adaptive_loop secondary rate is v s = some r →
        ∀ x ∈ r.1, -2 ≤ x ∧ x ≤ 2 := by
  intro is
  induction is with
  | nil =>
    intro v s hv r hr
    rw [adaptive_loop] at hr
    exact (Option.some_inj.mp hr) ▸ hv
  | cons i is ih =>
    intro v s hv r hr
    rw [adaptive_loop] at hr
    split at hr
    · rcases hx : secondary[i]? with _ | x
      · simp only [hx] at hr
        exact Option.noConfusion hr
      · simp only [hx] at hr
        rcases hset : setChecked v i x with _ | v'
        · simp only [hset] at hr
          exact Option.noConfusion hr
        · simp only [hset] at hr
          refine ih v' _ ?_ r hr
          unfold setChecked at hset
          split at hset
          · cases Option.some_inj.mp hset
            intro y hy
            rcases List.mem_or_eq_of_mem_set hy with hmem | hy'
            · exact hv y hmem
            · exact hy' ▸ hsec _ (List.getElem?_mem hx)
          · exact absurd hset (by simp)
    · exact ih v _ hv r hr

theorem adaptive_crossover_InRange2 (g other : Genotype) (s : RngState)
    (hg : g.InRange2) (ho : other.InRange2) (r : Genotype × RngState)
    (hr : adaptive_crossover g other s = some r) : r.1.InRange2 := by
  unfold adaptive_crossover at hr
  have hpr : (if other.strategy_coherence < g.strategy_coherence then g
      else other).InRange2 := by
    split
    · exact hg
    · exact ho
  have hsec : (if other.strategy_coherence < g.strategy_coherence then other
      else g).InRange2 := by
    split
    · exact ho
    · exact hg
  rcases hfm : adaptive_loop
      (if other.strategy_coherence < g.strategy_coherence then other
        else g).force_matrix (1/5) (List.range g.force_matrix.length)
      (if other.strategy_coherence < g.strategy_coherence then g
        else other).force_matrix s with _ | fm
  · simp only [hfm] at hr
    exact Option.noConfusion hr
  · simp only [hfm] at hr
    rcases hff : adaptive_loop
        (if other.strategy_coherence < g.strategy_coherence then other
          else g).food_forces ((1/5) * (1/2)) (List.range g.food_forces.length)
        (if other.strategy_coherence < g.strategy_coherence then g
          else other).food_forces fm.2 with _ | ff
    · simp only [hff] at hr
      exact Option.noConfusion hr
    · simp only [hff] at hr
      cases Option.some_inj.mp hr
      refine ⟨?_, ?_⟩
      · exact adaptive_loop_range _ _ hsec.1 _ _ _ hpr.1 fm hfm
      · exact adaptive_loop_range _ _ hsec.2 _ _ _ hpr.2 ff hff

theorem crossover_InRange2 (g other : Genotype) (s : RngState)
    (hg : g.InRange2) (ho : other.InRange2) (r : Genotype × RngState)
    (hr : g.crossover other s = some r) : r.1.InRange2 := by
  unfold Genotype.crossover at hr
  split at hr
  · cases Option.some_inj.mp hr
    exact symmetric_crossover_InRange2 g other s hg ho
  · split at hr
    · exact type_block_crossover_InRange2 g other s hg ho r hr
    · exact adaptive_crossover_InRange2 g other s hg ho r hr

theorem random_range_inUnit (lo hi : ℚ) (s : RngState) (h : s.InUnit) :
    (random_range lo hi s).2.InUnit := h

theorem gen_force_entry_range (type_count i : ℕ) (s : RngState)
    (h : s.InUnit) :
    (-2 ≤ (gen_force_entry type_count i s).1 ∧
      (gen_force_entry type_count i s).1 ≤ 2) ∧
      (gen_force_entry type_count i s).2.InUnit := by
  simp only [gen_force_entry]
  split
  · have := random_range_mem (-1) (-1/10) s (by norm_num) h
    exact ⟨⟨by linarith [this.1], by linarith [this.2]⟩, h⟩
  · have := random_range_mem (-1) 1 s (by norm_num) h
    exact ⟨⟨by linarith [this.1], by linarith [this.2]⟩, h⟩

theorem gen_list_range (f : ℕ → RngState → ℚ × RngState)
    (hf : ∀ i s, s.InUnit →
      (-2 ≤ (f i s).1 ∧ (f i s).1 ≤ 2) ∧ (f i s).2.InUnit) :
    ∀ (is : List ℕ) (s : RngState), s.InUnit →
      (∀ x ∈ (gen_list f is s).1, -2 ≤ x ∧ x ≤ 2) ∧
        (gen_list f is s).2.InUnit := by
  intro is
  induction is with
  | nil =>
    intro s h
    exact ⟨by intro x hx; simp [gen_list] at hx, h⟩
  | cons i is ih =>
    intro s h
    obtain ⟨hschritt, hstate⟩ := hf i s h
    obtain ⟨hrest, hrest2⟩ := ih (f i s).2 hstate
    rw [gen_list]
    refine ⟨?_, hrest2⟩
    intro x hx
    simp only [List.mem_cons] at hx
    rcases hx with rfl | hx
    · exact hschritt
    · exact hrest x hx

theorem generate_candidate_range (type_count : ℕ) (s : RngState)
    (h : s.InUnit) :
    (generate_candidate type_count s).1.InRange2 ∧
      (generate_candidate type_count s).2.InUnit := by
  unfold generate_candidate
  obtain ⟨hfm, hfm2⟩ := gen_list_range (gen_force_entry type_count)
    (gen_force_entry_range type_count) (List.range (type_count * type_count)) s h
  obtain ⟨hff, hff2⟩ := gen_list_range (fun _ s => random_range (-1) 1 s)
    (fun i s hs => ⟨by
      have := random_range_mem (-1) 1 s (by norm_num) hs
      exact ⟨by linarith [this.1], by linarith [this.2]⟩, hs⟩)
    (List.range type_count) _ hfm2
  exact ⟨⟨hfm, hff⟩, hff2⟩

theorem random_loop_range (type_count : ℕ) :
    ∀ (n : ℕ) (best : Genotype) (best_coherence : ℚ) (s : RngState),
      best.InRange2 → s.InUnit →
      (random_loop type_count n best best_coherence s).1.InRange2 := by
  intro n
  induction n with
  | zero => intro best bc s hb hs; exact hb
  | succ n ih =>
    intro best bc s hb hs
    obtain ⟨hc, hc2⟩ := generate_candidate_range type_count s hs
    rw [random_loop]
    split
    · exact ih _ _ _ hc hc2
    · exact ih _ _ _ hb hc2

theorem random_InRange2 (type_count : ℕ) (s : RngState) (h : s.InUnit) :
    (Genotype.random type_count s).1.InRange2 := by
  unfold Genotype.random
  exact InRange2_of_fields _ _ rfl rfl
    (random_loop_range type_count 5 (Genotype.new type_count) 0 s
      (new_InRange2 type_count) h)

/-- C7 (amended): random generation produces genomes whose decoded forces
lie in `[-2, 2]`; crossover and mutation preserve that range (crossover of
two in-range parents and mutation of an in-range genome decode in
`[-2, 2]`).  Load-time validation, however, only enforces `[-3, 3]` — see
the counterexample — so loaded genomes are exempted from the `[-2, 2]`
claim. -/
theorem decode_range_operations :
    (∀ (type_count : ℕ) (s : RngState), s.InUnit → ∀ a b,
      (-2 ≤ (Genotype.random type_count s).1.get_force a b ∧
        (Genotype.random type_count s).1.get_force a b ≤ 2) ∧
      (-2 ≤ (Genotype.random type_count s).1.get_food_force a ∧
        (Genotype.random type_count s).1.get_food_force a ≤ 2)) ∧
    (∀ (g other : Genotype) (s : RngState) (r : Genotype × RngState),
      g.InRange2 → other.InRange2 → g.crossover other s = some r → ∀ a b,
      (-2 ≤ r.1.get_force a b ∧ r.1.get_force a b ≤ 2) ∧
      (-2 ≤ r.1.get_food_force a ∧ r.1.get_food_force a ≤ 2)) ∧
    (∀ (g : Genotype) (rate : ℚ) (s : RngState), g.InRange2 → ∀ a b,
      (-2 ≤ (g.mutate rate s).1.get_force a b ∧
        (g.mutate rate s).1.get_force a b ≤ 2) ∧
      (-2 ≤ (g.mutate rate s).1.get_food_force a ∧
        (g.mutate rate s).1.get_food_force a ≤ 2)) := by
  refine ⟨?_, ?_, ?_⟩
  · intro type_count s h a b
    have hr := random_InRange2 type_count s h
    exact ⟨get_force_range _ hr a b, get_food_force_range _ hr a⟩
  · intro g other s r hg ho hr a b
    have hr2 := crossover_InRange2 g other s hg ho r hr
    exact ⟨get_force_range _ hr2 a b, get_food_force_range _ hr2 a⟩
  · intro g rate s hg a b
    have hm := mutate_InRange2 g rate s hg
    exact ⟨get_force_range _ hm a b, get_food_force_range _ hm a⟩

/-- Witness for the amended C7 at concrete inputs: the zero stream, the
`type_count = 1` genomes, a crossover of two fresh genomes and a mutation
at the optimized base rate. -/
theorem decode_range_operations_witness :
    s0.InUnit ∧
    (-2 ≤ (Genotype.random 1 s0).1.get_force 0 0 ∧
      (Genotype.random 1 s0).1.get_force 0 0 ≤ 2) ∧
    (Genotype.new 1).crossover (Genotype.new 1) s0 = some cxw ∧
    (-2 ≤ cxw.1.get_force 0 0 ∧ cxw.1.get_force 0 0 ≤ 2) ∧
    (-2 ≤ ((Genotype.new 1).mutate (3/20) s0).1.get_food_force 0 ∧
      ((Genotype.new 1).mutate (3/20) s0).1.get_food_force 0 ≤ 2) := by
  have hunit : s0.InUnit := fun n => ⟨le_refl 0, by norm_num [s0]⟩
  have hcx : (Genotype.new 1).crossover (Genotype.new 1) s0 =
      some (symmetric_crossover (Genotype.new 1) (Genotype.new 1) s0) := by
    unfold Genotype.crossover
    rw [if_pos]
    exact ⟨by norm_num [Genotype.new], by norm_num [Genotype.new]⟩
  have hcxw : (Genotype.new 1).crossover (Genotype.new 1) s0 = some cxw := by
    unfold cxw
    rw [hcx]
    rfl
  refine ⟨hunit, (decode_range_operations.1 1 s0 hunit 0 0).1, hcxw,
    ((decode_range_operations.2.1 (Genotype.new 1) (Genotype.new 1) s0 cxw
      (new_InRange2 1) (new_InRange2 1) hcxw) 0 0).1,
    ((decode_range_operations.2.2 (Genotype.new 1) (3/20) s0
      (new_InRange2 1)) 0 0).2⟩

/-! ## C6: degenerate evolution inputs -/

theorem div?_some (a b : ℚ) (hb : b ≠ 0) : div? a b = some (a / b) := by
  simp [div?, hb]

/-- With a coherence threshold other than `1`, every division in
`calculate_combined_fitness` has a nonzero denominator (the score
normalization is guarded by `best > worst`), so it never divides by
zero. -/
theorem calculate_combined_fitness_some (genome : ScoredGenome)
    (stats : EpochStats) (config : GeneticConfig)
    (hθ : config.coherence_threshold ≠ 1) :
    ∃ v, calculate_combined_fitness genome stats config = some v := by
  have hθ' : (1 : ℚ) - config.coherence_threshold ≠ 0 :=
    sub_ne_zero.mpr (Ne.symm hθ)
  by_cases h1 : stats.worst_score < stats.best_score
  · have h1' : stats.best_score - stats.worst_score ≠ 0 :=
      sub_ne_zero.mpr (ne_of_gt h1)
    by_cases h2 : config.coherence_threshold < genome.coherence <;>
      simp [calculate_combined_fitness, h1, h1', h2, hθ', div?]
  · by_cases h2 : config.coherence_threshold < genome.coherence <;>
      simp [calculate_combined_fitness, h1, h2, hθ', div?]

theorem foldlM_mem {α : Type} (f : α → α → Option α)
    (hf : ∀ a b, ∃ c, f a b = some c ∧ (c = a ∨ c = b)) :
    ∀ (xs : List α) (acc : α),
      ∃ y, List.foldlM f acc xs = some y ∧ (y = acc ∨ y ∈ xs) := by
  intro xs
  induction xs with
  | nil => intro acc; exact ⟨acc, rfl, Or.inl rfl⟩
  | cons b xs ih =>
    intro acc
    obtain ⟨c, hc, hcm⟩ := hf acc b
    obtain ⟨y, hy, hym⟩ := ih c
    refine ⟨y, ?_, ?_⟩
    · rw [List.foldlM_cons, hc]
      exact hy
    · rcases hym with rfl | hym
      · rcases hcm with rfl | rfl
        · exact Or.inl rfl
        · exact Or.inr (List.mem_cons_self ..)
      · exact Or.inr (List.mem_cons_of_mem _ hym)

theorem select_best_some (config : GeneticConfig)
    (hθ : config.coherence_threshold ≠ 1) (l : List ScoredGenome) :
    ∃ r, select_best config l = some r ∧ ∀ g', r = some g' → g' ∈ l := by
  cases l with
  | nil => exact ⟨none, rfl, fun g' h => by simp at h⟩
  | cons x xs =>
    obtain ⟨y, hy, hym⟩ := foldlM_mem
      (fun acc b => do
        let fa ← calculate_combined_fitness acc EpochStats.zero config
        let fb ← calculate_combined_fitness b EpochStats.zero config
        pure (if fa ≤ fb then b else acc))
      (fun a b => by
        obtain ⟨fa, hfa⟩ := calculate_combined_fitness_some a EpochStats.zero config hθ
        obtain ⟨fb, hfb⟩ := calculate_combined_fitness_some b EpochStats.zero config hθ
        refine ⟨if fa ≤ fb then b else a, ?_, ?_⟩
        · simp [hfa, hfb]
        · split
          · exact Or.inr rfl
          · exact Or.inl rfl)
      xs x
    refine ⟨some y, ?_, ?_⟩
    · rw [select_best, hy]
      rfl
    · intro g' hg'
      cases Option.some_inj.mp hg'
      rcases hym with rfl | hym
      · exact List.mem_cons_self ..
      · exact List.mem_cons_of_mem _ hym

theorem scan_pick_mem :
    ∀ (pairs : List (ℚ × ScoredGenome)) (r : ℚ) (g : ScoredGenome),
      scan_pick pairs r = some g → g ∈ pairs.map (·.2) := by
  intro pairs
  induction pairs with
  | nil => intro r g h; simp [scan_pick] at h
  | cons p rest ih =>
    intro r g h
    rw [scan_pick] at h
    split at h
    · cases Option.some_inj.mp h
      exact List.mem_cons_self ..
    · exact List.mem_cons_of_mem _ (ih _ g h)

theorem pick_one_mem (population : List ScoredGenome) (config : GeneticConfig)
    (s : RngState) (g : ScoredGenome)
    (h : (pick_one population config s).1 = some g) : g ∈ population := by
  unfold pick_one at h
  have := scan_pick_mem _ _ _ h
  rcases List.mem_map.mp this with ⟨⟨w, g'⟩, hmem, hg⟩
  cases hg
  exact (List.of_mem_zip hmem).2

theorem tournament_loop_mem (population : List ScoredGenome)
    (config : GeneticConfig) :
    ∀ (n : ℕ) (s : RngState) (g : ScoredGenome),
      g ∈ (tournament_loop population config n s).1 → g ∈ population := by
  intro n
  induction n with
  | zero => intro s g h; simp [tournament_loop] at h
  | succ n ih =>
    intro s g h
    rw [tournament_loop] at h
    rcases hp : (pick_one population config s).1 with _ | gg
    · rw [hp] at h
      exact ih _ g h
    · rw [hp] at h
      simp only [List.mem_cons] at h
      rcases h with rfl | h
      · exact pick_one_mem population config s g hp
      · exact ih _ g h

/-- Tournament selection never panics on a nonempty population: it returns
the genotype of some member. -/
theorem enhanced_tournament_selection_some (population : List ScoredGenome)
    (config : GeneticConfig) (s : RngState) (h0 : population ≠ [])
    (hθ : config.coherence_threshold ≠ 1) :
    ∃ p, enhanced_tournament_selection population config s = some p ∧
      ∃ sg ∈ population, p.1 = sg.genotype := by
  obtain ⟨p0, rest, rfl⟩ := List.exists_cons_of_ne_nil h0
  obtain ⟨r, hr, hrm⟩ := select_best_some config hθ
    (tournament_loop (p0 :: rest) config (min 4 (p0 :: rest).length) s).1
  simp only [enhanced_tournament_selection]
  rw [hr]
  cases r with
  | none =>
    exact ⟨(p0.genotype, _), rfl, p0, List.mem_cons_self .., rfl⟩
  | some gg =>
    refine ⟨(gg.genotype, _), rfl, gg, ?_, rfl⟩
    exact tournament_loop_mem _ config _ s gg (hrm gg rfl)

/-- On a one-element population the tournament returns exactly that
individual's genotype (selection degrades to cloning). -/
theorem enhanced_tournament_selection_singleton (g : ScoredGenome)
    (config : GeneticConfig) (s : RngState)
    (hθ : config.coherence_threshold ≠ 1) :
    ∃ s', enhanced_tournament_selection [g] config s =
      some (g.genotype, s') := by
  obtain ⟨p, hp, sg, hsg, hpe⟩ :=
    enhanced_tournament_selection_some [g] config s (by simp) hθ
  rw [List.mem_singleton] at hsg
  subst hsg
  refine ⟨p.2, ?_⟩
  rw [hp]
  rw [show p = (p.1, p.2) from rfl, hpe]

/-- C6 counterexample: on the empty population, the fallback
`unwrap_or(population[0].genotype.clone())` of
`enhanced_tournament_selection` indexes `population[0]` out of bounds — a
panic, not the cloning-only degradation the claim requires. -/
theorem tournament_selection_empty_panics :
    enhanced_tournament_selection [] GeneticConfig.optimized s0 = none := rfl

/-- C6 (amended): for a population of a single individual, tournament
selection returns that individual's genotype (cloning-only) and the
combined-fitness and epoch-statistics computations run all their divisions
and indexings successfully; for the empty population, epoch statistics
returns the zero default and combined fitness still succeeds — but
tournament selection out-of-bounds-indexes `population[0]` (see the
counterexample). -/
theorem degenerate_population_guards (g : ScoredGenome) (sqrtF : ℚ → ℚ)
    (prev : Option EpochStats) (s : RngState) (stats : EpochStats) :
    (∃ s', enhanced_tournament_selection [g] GeneticConfig.optimized s =
      some (g.genotype, s')) ∧
    calculate_epoch_stats sqrtF [] prev = some EpochStats.zero ∧
    (∃ st, calculate_epoch_stats sqrtF [g] prev = some st) ∧
    (∃ v, calculate_combined_fitness g stats GeneticConfig.optimized = some v) := by
  refine ⟨?_, ?_, ?_, ?_⟩
  · exact enhanced_tournament_selection_singleton g GeneticConfig.optimized s
      (by norm_num [GeneticConfig.optimized])
  · rfl
  · rw [← Option.isSome_iff_exists]
    simp [calculate_epoch_stats, calculate_genetic_diversity, div?,
      max_score, min_score]
  · exact calculate_combined_fitness_some g stats GeneticConfig.optimized
      (by norm_num [GeneticConfig.optimized])

/-! ## C5: next-generation size -/

theorem fold_set_force_food_eq (g other : Genotype) (i : ℕ) (ng : Genotype)
    (src : Genotype) :
    ((List.range g.type_count).foldl
      (fun (acc : Genotype) j => acc.set_force i j (src.get_force i j))
      ng).food_forces = ng.food_forces :=
  foldl_preserve (fun (acc : Genotype) => acc.food_forces = ng.food_forces)
    _ (fun acc j hacc => (set_force_food ..).trans hacc) _ ng rfl

theorem type_block_loop_some (g other : Genotype)
    (hgf : g.food_forces.length = g.type_count)
    (hof : other.food_forces.length = g.type_count) :
    ∀ (is : List ℕ) (ng : Genotype) (s : RngState),
      (∀ i ∈ is, i < g.type_count) →
      ng.food_forces.length = g.type_count →
      ∃ r, type_block_loop g other is ng s = some r := by
  intro is
  induction is with
  | nil => intro ng s his hng; exact ⟨(ng, s), rfl⟩
  | cons i is ih =>
    intro ng s his hng
    simp only [type_block_loop]
    have hi : i < g.type_count := his i (List.mem_cons_self ..)
    have hsf : (if (random_bool_half s).1 then g else other).food_forces.length
        = g.type_count := by
      split
      · exact hgf
      · exact hof
    obtain ⟨v, hv⟩ : ∃ v,
        (if (random_bool_half s).1 then g else other).food_forces[i]? = some v :=
      ⟨_, List.getElem?_eq_getElem (hsf ▸ hi)⟩
    simp only [hv]
    have hng1 : ((List.range g.type_count).foldl
        (fun (acc : Genotype) j => acc.set_force i j
          ((if (random_bool_half s).1 then g else other).get_force i j))
        ng).food_forces = ng.food_forces := fold_set_force_food_eq g other i ng _
    have hset : setChecked ((List.range g.type_count).foldl
        (fun (acc : Genotype) j => acc.set_force i j
          ((if (random_bool_half s).1 then g else other).get_force i j))
        ng).food_forces i v =
        some (((List.range g.type_count).foldl
          (fun (acc : Genotype) j => acc.set_force i j
            ((if (random_bool_half s).1 then g else other).get_force i j))
          ng).food_forces.set i v) := by
      unfold setChecked
      rw [if_pos]
      rw [hng1, hng]
      exact hi
    simp only [hset]
    exact ih _ _ (fun j hj => his j (List.mem_cons_of_mem _ hj))
      (by simp only [List.length_set, hng1, hng])

theorem adaptive_loop_some (secondary : List ℚ) (rate : ℚ) :
    ∀ (is : List ℕ) (v : List ℚ) (s : RngState),
      (∀ i ∈ is, i < secondary.length ∧ i < v.length) →
      ∃ r, adaptive_loop secondary rate is v s = some r ∧
        r.1.length = v.length := by
  intro is
  induction is with
  | nil => intro v s his; exact ⟨(v, s), rfl, rfl⟩
  | cons i is ih =>
    intro v s his
    simp only [adaptive_loop]
    have hi := his i (List.mem_cons_self ..)
    by_cases hc : (random_f32 s).1 < rate
    · rw [if_pos hc]
      obtain ⟨x, hx⟩ : ∃ x, secondary[i]? = some x :=
        ⟨_, List.getElem?_eq_getElem hi.1⟩
      simp only [hx]
      have hset : setChecked v i x = some (v.set i x) := by
        unfold setChecked
        rw [if_pos hi.2]
      simp only [hset]
      obtain ⟨r, hr, hlen⟩ := ih (v.set i x) (random_f32 s).2
        (fun j hj => ⟨(his j (List.mem_cons_of_mem _ hj)).1,
          by rw [List.length_set]; exact (his j (List.mem_cons_of_mem _ hj)).2⟩)
      exact ⟨r, hr, by rw [hlen, List.length_set]⟩
    · rw [if_neg hc]
      exact ih v _ (fun j hj => his j (List.mem_cons_of_mem _ hj))

/-- Crossover of two genomes with matching type counts and intact length
invariants never panics. -/
theorem crossover_some (g other : Genotype) (s : RngState)
    (hg : g.GoodLengths) (ho : other.GoodLengths)
    (htc : other.type_count = g.type_count) :
    ∃ r, g.crossover other s = some r := by
  unfold Genotype.crossover
  split
  · exact ⟨_, rfl⟩
  split
  · obtain ⟨r, hr⟩ := type_block_loop_some g other hg.2
      (by rw [ho.2, htc]) (List.range g.type_count) (Genotype.new g.type_count)
      s (fun i hi => List.mem_range.mp hi)
      (by simp [Genotype.new])
    unfold type_block_crossover
    rw [hr]
    exact ⟨_, rfl⟩
  · simp only [adaptive_crossover]
    have hpfm : (if other.strategy_coherence < g.strategy_coherence then g
        else other).force_matrix.length = g.force_matrix.length := by
      split
      · rfl
      · rw [ho.1, htc, hg.1]
    have hsfm : (if other.strategy_coherence < g.strategy_coherence then other
        else g).force_matrix.length = g.force_matrix.length := by
      split
      · rw [ho.1, htc, hg.1]
      · rfl
    have hpff : (if other.strategy_coherence < g.strategy_coherence then g
        else other).food_forces.length = g.food_forces.length := by
      split
      · rfl
      · rw [ho.2, htc, hg.2]
    have hsff : (if other.strategy_coherence < g.strategy_coherence then other
        else g).food_forces.length = g.food_forces.length := by
      split
      · rw [ho.2, htc, hg.2]
      · rfl
    obtain ⟨fm, hfm, hfml⟩ := adaptive_loop_some
      (if other.strategy_coherence < g.strategy_coherence then other
        else g).force_matrix (1/5) (List.range g.force_matrix.length)
      (if other.strategy_coherence < g.strategy_coherence then g
        else other).force_matrix s
      (fun i hi => ⟨by rw [hsfm]; exact List.mem_range.mp hi,
        by rw [hpfm]; exact List.mem_range.mp hi⟩)
    simp only [hfm]
    obtain ⟨ff, hff, hffl⟩ := adaptive_loop_some
      (if other.strategy_coherence < g.strategy_coherence then other
        else g).food_forces ((1/5) * (1/2)) (List.range g.food_forces.length)
      (if other.strategy_coherence < g.strategy_coherence then g
        else other).food_forces fm.2
      (fun i hi => ⟨by rw [hsff]; exact List.mem_range.mp hi,
        by rw [hpff]; exact List.mem_range.mp hi⟩)
    simp only [hff]
    exact ⟨_, rfl⟩

theorem crossover_retry_some (p1 p2 : Genotype) (config : GeneticConfig)
    (h1 : p1.GoodLengths) (h2 : p2.GoodLengths)
    (htc : p2.type_count = p1.type_count) :
    ∀ (n : ℕ) (child : Genotype) (s : RngState),
      ∃ r, crossover_retry p1 p2 config n child s = some r := by
  intro n
  induction n with
  | zero => intro child s; exact ⟨(child, s), rfl⟩
  | succ n ih =>
    intro child s
    rw [crossover_retry]
    split
    · exact ⟨(child, s), rfl⟩
    · obtain ⟨c, hc⟩ := crossover_some p1 p2 s h1 h2 htc
      simp only [hc]
      exact ih c.1 c.2

/-- Every iteration of the reproduction loop appends exactly one offspring
(a validated or random genome), so with enough fuel it terminates
successfully with `max pop.length target` genomes — provided the genome
pool is nonempty, its genotypes are intact and share one type count. -/
theorem reproduce_loop_some (genomes : List ScoredGenome)
    (config : GeneticConfig) (stats : EpochStats) (target : ℕ) (tc0 : ℕ)
    (h0 : genomes ≠ []) (hθ : config.coherence_threshold ≠ 1)
    (hinv : ∀ sg ∈ genomes, sg.genotype.GoodLengths ∧
      sg.genotype.type_count = tc0) :
    ∀ (fuel : ℕ) (pop : List Genotype) (s : RngState),
      target ≤ pop.length + fuel →
      ∃ r, reproduce_loop genomes config stats target fuel pop s = some r ∧
        r.1.length = max pop.length target := by
  obtain ⟨gh, gtl, rfl⟩ := List.exists_cons_of_ne_nil h0
  intro fuel
  induction fuel with
  | zero =>
    intro pop s hle
    rw [reproduce_loop]
    rw [if_neg (by omega)]
    exact ⟨(pop, s), rfl, show pop.length = max pop.length target by omega⟩
  | succ fuel ih =>
    intro pop s hle
    by_cases hfull : target ≤ pop.length
    · rw [reproduce_loop]
      rw [if_pos hfull]
      exact ⟨(pop, s), rfl, show pop.length = max pop.length target by omega⟩
    · simp only [reproduce_loop]
      rw [if_neg hfull]
      have push_analysis : ∀ (off : Genotype × RngState),
          ∃ r, (match off with
            | (og, ors) =>
              let adaptive_rate := calculate_adaptive_mutation_rate stats
                config.mutation_rate og.strategy_coherence
              let off := og.mutate adaptive_rate ors
              if config.coherence_threshold ≤ off.1.strategy_coherence ∨
                  target - 2 ≤ pop.length then
                reproduce_loop (gh :: gtl) config stats target fuel
                  (pop ++ [off.1]) off.2
              else if pop.length < target - 1 then
                match (gh :: gtl)[0]? with
                | none => none
                | some g0 =>
                  let rg := Genotype.random g0.genotype.type_count off.2
                  reproduce_loop (gh :: gtl) config stats target fuel
                    (pop ++ [rg.1]) rg.2
              else
                reproduce_loop (gh :: gtl) config stats target fuel pop off.2) =
            some r ∧ r.1.length = max pop.length target := by
        intro off
        obtain ⟨og, ors⟩ := off
        dsimp only
        set off' := og.mutate (calculate_adaptive_mutation_rate stats
          config.mutation_rate og.strategy_coherence) ors with hoff'
        by_cases hpush : config.coherence_threshold ≤ off'.1.strategy_coherence ∨
            target - 2 ≤ pop.length
        · rw [if_pos hpush]
          obtain ⟨r, hrr, hlen⟩ := ih (pop ++ [off'.1]) off'.2
            (by simp only [List.length_append, List.length_cons,
              List.length_nil]; omega)
          refine ⟨r, hrr, ?_⟩
          simp only [List.length_append, List.length_cons,
            List.length_nil] at hlen
          omega
        · rw [if_neg hpush]
          by_cases hlt : pop.length < target - 1
          · rw [if_pos hlt]
            obtain ⟨r, hrr, hlen⟩ := ih
              (pop ++ [(Genotype.random gh.genotype.type_count off'.2).1])
              (Genotype.random gh.genotype.type_count off'.2).2
              (by simp only [List.length_append, List.length_cons,
                List.length_nil]; omega)
            refine ⟨r, ?_, ?_⟩
            · rw [List.getElem?_cons_zero]
              exact hrr
            · simp only [List.length_append, List.length_cons,
                List.length_nil] at hlen
              omega
          · exfalso
            have h2 : ¬ (target - 2 ≤ pop.length) := fun h => hpush (Or.inr h)
            omega
      by_cases hc : (random_f32 s).1 < config.crossover_rate ∧
          2 ≤ (gh :: gtl).length
      · rw [if_pos hc]
        obtain ⟨p1, hp1, sg1, hsg1, hp1g⟩ :=
          enhanced_tournament_selection_some (gh :: gtl) config
            (random_f32 s).2 (by simp) hθ
        simp only [hp1, Option.bind_eq_bind, Option.some_bind]
        obtain ⟨p2, hp2, sg2, hsg2, hp2g⟩ :=
          enhanced_tournament_selection_some (gh :: gtl) config p1.2
            (by simp) hθ
        simp only [hp2, Option.bind_eq_bind, Option.some_bind]
        have hg1 : p1.1.GoodLengths := hp1g ▸ (hinv sg1 hsg1).1
        have hg2 : p2.1.GoodLengths := hp2g ▸ (hinv sg2 hsg2).1
        have htc : p2.1.type_count = p1.1.type_count := by
          rw [hp1g, hp2g, (hinv sg1 hsg1).2, (hinv sg2 hsg2).2]
        obtain ⟨c, hcx⟩ := crossover_some p1.1 p2.1 p2.2 hg1 hg2 htc
        simp only [hcx, Option.bind_eq_bind, Option.some_bind]
        obtain ⟨child, hchild⟩ := crossover_retry_some p1.1 p2.1 config
          hg1 hg2 htc 3 c.1 c.2
        simp only [hchild, Option.bind_eq_bind, Option.some_bind]
        exact push_analysis child
      · rw [if_neg hc]
        obtain ⟨p, hp, sg, hsg, hpg⟩ :=
          enhanced_tournament_selection_some (gh :: gtl) config
            (random_f32 s).2 (by simp) hθ
        simp only [hp, Option.bind_eq_bind, Option.some_bind]
        exact push_analysis p

theorem injection_loop_some (type_count0 diversity_injection elite_count : ℕ) :
    ∀ (n : ℕ) (pop : List Genotype) (s : RngState),
      elite_count < pop.length →
      ∃ r, injection_loop type_count0 diversity_injection elite_count n pop s =
        some r ∧ r.1.length = pop.length := by
  intro n
  induction n with
  | zero => intro pop s hec; exact ⟨(pop, s), rfl, rfl⟩
  | succ n ih =>
    intro pop s hec
    simp only [injection_loop]
    by_cases hdj : diversity_injection < pop.length
    · rw [if_pos hdj]
      have hr : random_range_nat elite_count pop.length
          (Genotype.random type_count0 s).2 =
          some (elite_count + (Int.toNat
            ⌊((Genotype.random type_count0 s).2.next.1) *
              ((pop.length : ℚ) - elite_count)⌋) % (pop.length - elite_count),
            (Genotype.random type_count0 s).2.next.2) := by
        unfold random_range_nat
        rw [if_pos hec]
        rfl
      simp only [hr]
      obtain ⟨r, hrr, hlen⟩ := ih
        (pop.set (elite_count + (Int.toNat
            ⌊((Genotype.random type_count0 s).2.next.1) *
              ((pop.length : ℚ) - elite_count)⌋) % (pop.length - elite_count))
          (Genotype.random type_count0 s).1)
        (Genotype.random type_count0 s).2.next.2
        (by rw [List.length_set]; exact hec)
      exact ⟨r, hrr, by rw [hlen, List.length_set]⟩
    · rw [if_neg hdj]
      exact ih pop s hec

theorem elite_phase_length_aux (light_rate : ℚ) :
    ∀ (elites : List ScoredGenome) (acc : List Genotype × RngState),
      (elites.foldl (fun (acc : List Genotype × RngState) sg =>
        ((acc.1 ++ [(sg.genotype.mutate light_rate acc.2).1],
          (sg.genotype.mutate light_rate acc.2).2))) acc).1.length =
        acc.1.length + elites.length := by
  intro elites
  induction elites with
  | nil => intro acc; simp
  | cons sg elites ih =>
    intro acc
    rw [List.foldl_cons, ih]
    simp only [List.length_append, List.length_cons, List.length_nil]
    omega

theorem elite_phase_length (elites : List ScoredGenome) (light_rate : ℚ)
    (s : RngState) :
    (elite_phase elites light_rate s).1.length = elites.length := by
  unfold elite_phase
  have := elite_phase_length_aux light_rate elites ([], s)
  simpa using this

theorem elite_count_le (t : ℕ) (h : 1 ≤ t) :
    max ⌈(t : ℚ) * (3/10)⌉₊ 1 ≤ t := by
  have h1 : ⌈(t : ℚ) * (3/10)⌉₊ ≤ t := by
    rw [Nat.ceil_le]
    have ht : (0 : ℚ) ≤ (t : ℚ) := Nat.cast_nonneg t
    nlinarith
  omega

theorem elite_count_lt (t : ℕ) (h : 3 ≤ t) :
    max ⌈(t : ℚ) * (3/10)⌉₊ 1 < t := by
  have h1 : ⌈(t : ℚ) * (3/10)⌉₊ ≤ t - 1 := by
    rw [Nat.ceil_le]
    have h2 : ((t - 1 : ℕ) : ℚ) = (t : ℚ) - 1 := by
      have := Nat.cast_sub (by omega : 1 ≤ t) (R := ℚ)
      simpa using this
    rw [h2]
    have ht : (3 : ℚ) ≤ (t : ℚ) := by exact_mod_cast h
    nlinarith
  omega

/-- C5 (amended): for every target size and every nonempty list of scored
genomes whose genotypes satisfy the length invariant and share one type
count (as the caller guarantees — one entry per simulation), the new
generation has exactly `target_size` genomes.  On an empty list the
function panics via tournament selection (see the counterexample), except
in the trivial `target_size = 0` case. -/
theorem generate_improved_population_size (genomes : List ScoredGenome)
    (target_size : ℕ) (stats : EpochStats) (s : RngState) (tc0 : ℕ)
    (h0 : genomes ≠ [])
    (hinv : ∀ sg ∈ genomes, sg.genotype.GoodLengths ∧
      sg.genotype.type_count = tc0) :
    ∃ r, generate_improved_population genomes target_size
      GeneticConfig.optimized stats s = some r ∧ r.1.length = target_size := by
  have hθ : GeneticConfig.optimized.coherence_threshold ≠ 1 := by
    norm_num [GeneticConfig.optimized]
  obtain ⟨gh, gtl, rfl⟩ := List.exists_cons_of_ne_nil h0
  simp only [generate_improved_population]
  set ec := max ⌈(target_size : ℚ) * GeneticConfig.optimized.elite_ratio⌉₊ 1
    with hec_def
  clear_value ec
  have hep : (elite_phase ((gh :: gtl).take (min ec (gh :: gtl).length))
      (GeneticConfig.optimized.mutation_rate * (1/10)) s).1.length =
      min ec (gh :: gtl).length := by
    rw [elite_phase_length, List.length_take]
    omega
  obtain ⟨r1, hr1, hlen1⟩ := reproduce_loop_some (gh :: gtl)
    GeneticConfig.optimized stats target_size tc0 (by simp) hθ hinv
    (target_size + 1)
    (elite_phase ((gh :: gtl).take (min ec (gh :: gtl).length))
      (GeneticConfig.optimized.mutation_rate * (1/10)) s).1
    (elite_phase ((gh :: gtl).take (min ec (gh :: gtl).length))
      (GeneticConfig.optimized.mutation_rate * (1/10)) s).2
    (by omega)
  simp only [hr1, Option.bind_eq_bind, Option.some_bind]
  rw [hep] at hlen1
  by_cases hinj : stats.diversity_index < 1/2 ∧ 2 < r1.1.length
  · rw [if_pos hinj]
    simp only [List.getElem?_cons_zero, Option.bind_eq_bind, Option.some_bind]
    have hecr : ec < r1.1.length := by
      have hec31 : ec = max ⌈(target_size : ℚ) * (3/10)⌉₊ 1 := by
        rw [hec_def]
        norm_num [GeneticConfig.optimized]
      rcases Nat.eq_zero_or_pos target_size with rfl | hpos
      · exfalso
        have h1 : ec = 1 := by
          rw [hec31]
          norm_num
        omega
      · have hle := elite_count_le target_size hpos
        have h3 : 3 ≤ target_size := by omega
        have hlt := elite_count_lt target_size h3
        omega
    obtain ⟨r2, hr2, hlen2⟩ := injection_loop_some gh.genotype.type_count
      (Int.toNat ⌊(target_size : ℚ) * (1/10)⌋) ec
      (Int.toNat ⌊(target_size : ℚ) * (1/10)⌋) r1.1 r1.2 hecr
    simp only [hr2]
    refine ⟨_, rfl, ?_⟩
    simp only [List.length_take]
    omega
  · rw [if_neg hinj]
    refine ⟨_, rfl, ?_⟩
    simp only [List.length_take]
    omega

/-- Witness for the amended C5: one intact genome, target size 3. -/
theorem generate_improved_population_size_witness :
    (([⟨Genotype.new 1, 0, 0, 1, 0⟩] : List ScoredGenome) ≠ []) ∧
    (∃ r, generate_improved_population
      [⟨Genotype.new 1, 0, 0, 1, 0⟩] 3 GeneticConfig.optimized
      EpochStats.zero s0 = some r ∧ r.1.length = 3) := by
  refine ⟨by simp, ?_⟩
  exact generate_improved_population_size [⟨Genotype.new 1, 0, 0, 1, 0⟩] 3
    EpochStats.zero s0 1 (by simp)
    (fun sg hsg => by
      rw [List.mem_singleton] at hsg
      subst hsg
      exact ⟨by decide, rfl⟩)

/-- C5 counterexample: with an empty scored-genome list and target size 1,
`generate_improved_population` panics inside tournament selection
(out-of-bounds `population[0]`), so no generation of size 1 is produced. -/
theorem generate_improved_population_empty_panics :
    generate_improved_population [] 1 GeneticConfig.optimized
      EpochStats.zero s0 = none := by
  have h1 : ∀ (fuel : ℕ) (s : RngState),
      reproduce_loop [] GeneticConfig.optimized EpochStats.zero 1 (fuel + 1)
        [] s = none := by
    intro fuel s
    rw [reproduce_loop]
    rw [if_neg (by simp)]
    have hcond : ¬ ((random_f32 s).1 < GeneticConfig.optimized.crossover_rate ∧
        2 ≤ ([] : List ScoredGenome).length) := by simp
    rw [if_neg hcond]
    rfl
  simp only [generate_improved_population, List.take_nil]
  rw [show elite_phase ([] : List ScoredGenome)
    (GeneticConfig.optimized.mutation_rate * (1/10)) s0 = ([], s0) from rfl]
  rw [h1 1 s0]
  rfl

/-! ## C1: the two-regime force law -/

/-- C1: `calculate_acceleration` returns the zero vector under the `0.001`
distance guard (no NaN/Inf), and for `0.001 ≤ |d| ≤ max_force_range` it
returns `d` scaled by `magnitude/|d|`, where the signed magnitude is
`dist/min_r - 1` below `min_r = type_count * PARTICLE_RADIUS` and
`attraction * (1 - |1 + min_r_norm - 2*dist_norm| / (1 - min_r_norm))`
beyond it, all distances normalized by `max_force_range` — i.e. a vector
directed along `d` with exactly the claimed signed magnitude. -/
theorem calculate_acceleration_law (type_count : ℕ) (d : Vec3R)
    (attraction max_force_range : ℝ) :
    (d.length < 1/1000 →
      calculate_acceleration (min_r_of type_count) d attraction
        max_force_range = Vec3R.zero) ∧
    (1/1000 ≤ d.length → d.length ≤ max_force_range →
      calculate_acceleration (min_r_of type_count) d attraction
        max_force_range =
      Vec3R.smul (claimed_force_magnitude (min_r_of type_count) d.length
        attraction max_force_range / d.length) d) := by
  constructor
  · intro h
    unfold calculate_acceleration
    rw [if_pos h]
  · intro h1 h2
    have h0 : (0 : ℝ) < d.length := lt_of_lt_of_le (by norm_num) h1
    have hd0 : d.length ≠ 0 := ne_of_gt h0
    have hR : (0 : ℝ) < max_force_range := lt_of_lt_of_le h0 h2
    have hRne : max_force_range ≠ 0 := ne_of_gt hR
    have key : ∀ F t : ℝ,
        F / (d.length / max_force_range) * (1 / max_force_range * t) =
          F / d.length * t := by
      intro F t
      field_simp
      ring
    simp only [calculate_acceleration, claimed_force_magnitude, Vec3R.smul]
    rw [if_neg (not_lt.mpr h1)]
    simp only [div_lt_div_iff_of_pos_right hR]
    by_cases hreg : d.length < min_r_of type_count
    · rw [if_pos hreg, if_pos hreg]
      have hm : d.length / max_force_range /
          (min_r_of type_count / max_force_range) =
          d.length / min_r_of type_count := by
        rcases eq_or_ne (min_r_of type_count) 0 with hm0 | hm0
        · rw [hm0]
          simp
        · field_simp
      rw [hm, Vec3R.mk.injEq]
      exact ⟨key _ _, key _ _, key _ _⟩
    · rw [if_neg hreg, if_neg hreg, Vec3R.mk.injEq]
      exact ⟨key _ _, key _ _, key _ _⟩

/-- Witness for C1 at `d = (3,0,0)`, one particle type (`min_r = 4`),
`attraction = 1`, `max_force_range = 100` (so `|d| = 3` falls in the
repulsive regime). -/
theorem calculate_acceleration_law_witness :
    (1/1000 : ℝ) ≤ (Vec3R.mk 3 0 0).length ∧
    (Vec3R.mk 3 0 0).length ≤ 100 ∧
    calculate_acceleration (min_r_of 1) ⟨3, 0, 0⟩ 1 100 =
      Vec3R.smul (claimed_force_magnitude (min_r_of 1)
        (Vec3R.mk 3 0 0).length 1 100 / (Vec3R.mk 3 0 0).length)
        ⟨3, 0, 0⟩ := by
  have hlen : (Vec3R.mk 3 0 0).length = 3 := by
    unfold Vec3R.length Vec3R.dot
    rw [show (3 * 3 + 0 * 0 + 0 * 0 : ℝ) = 3 ^ 2 by norm_num]
    exact Real.sqrt_sq (by norm_num)
  have h1 : (1/1000 : ℝ) ≤ (Vec3R.mk 3 0 0).length := by
    rw [hlen]
    norm_num
  have h2 : (Vec3R.mk 3 0 0).length ≤ 100 := by
    rw [hlen]
    norm_num
  exact ⟨h1, h2, (calculate_acceleration_law 1 ⟨3, 0, 0⟩ 1 100).2 h1 h2⟩

/-! ## C3: neighbor-query soundness -/

/-- Every triple the cache builder collects for one particle excludes that
particle and belongs to its simulation. -/
theorem cache_neighbors_for_sound (sqrtF : ℚ → ℚ)
    (bounds : Option (ℚ × ℚ × ℚ)) (maxr : ℚ)
    (tree : List (Vec3Q × Option Entity)) (sims : List (Entity × ℕ))
    (parts : List PRow) (entity : Entity) (position : Vec3Q) (sim_id : ℕ) :
    ∀ t ∈ cache_neighbors_for sqrtF bounds maxr tree sims parts entity
      position sim_id,
      t.1 ≠ entity ∧ particle_sim sims parts t.1 = some sim_id := by
  unfold cache_neighbors_for
  refine foldl_preserve
    (fun (acc : List (Entity × Vec3Q × ℕ)) => ∀ t ∈ acc,
      t.1 ≠ entity ∧ particle_sim sims parts t.1 = some sim_id)
    _ ?_ _ _ (by intro t ht; simp at ht)
  intro acc ghost hacc
  refine foldl_preserve
    (fun (acc : List (Entity × Vec3Q × ℕ)) => ∀ t ∈ acc,
      t.1 ≠ entity ∧ particle_sim sims parts t.1 = some sim_id)
    _ ?_ _ _ hacc
  intro acc2 item hacc2 t ht
  rcases hit : item.2 with _ | ne
  · simp only [hit] at ht
    exact hacc2 t ht
  · simp only [hit] at ht
    by_cases hne : ne = entity
    · rw [if_pos hne] at ht
      exact hacc2 t ht
    · rw [if_neg hne] at ht
      rcases hfp : find_particle parts ne with _ | np
      · simp only [hfp] at ht
        exact hacc2 t ht
      · simp only [hfp] at ht
        rcases hfs : find_sim sims np.parent with _ | nsim
        · simp only [hfs] at ht
          exact hacc2 t ht
        · simp only [hfs] at ht
          by_cases hns : nsim ≠ sim_id
          · rw [if_pos hns] at ht
            exact hacc2 t ht
          · rw [if_neg hns] at ht
            split at ht
            · rcases List.mem_append.mp ht with hmem | hlast
              · exact hacc2 t hmem
              · rw [List.mem_singleton] at hlast
                subst hlast
                refine ⟨hne, ?_⟩
                unfold particle_sim
                rw [hfp]
                show find_sim sims np.parent = some sim_id
                rw [hfs]
                rw [not_not.mp hns]
            · exact hacc2 t ht

/-- The raw-tree fallback search only filters out the querying entity. -/
theorem tree_fallback_neighbors_sound (tree : List (Vec3Q × Option Entity))
    (entity : Entity) (position : Vec3Q) (max_distance : ℚ) :
    ∀ t ∈ tree_fallback_neighbors tree entity position max_distance,
      t.1 ≠ entity := by
  intro t ht
  unfold tree_fallback_neighbors at ht
  rcases List.mem_filterMap.mp ht with ⟨item, hmem, hsome⟩
  rcases hit : item.2 with _ | ent
  · simp only [hit] at hsome
    exact Option.noConfusion hsome
  · simp only [hit] at hsome
    split at hsome
    · obtain rfl : t = (ent, item.1, 0) := (Option.some_inj.mp hsome).symm
      assumption
    · exact absurd hsome (by simp)

/-- Shape of the cache entries built by `update_torus_cache` in Teleport
mode. -/
theorem update_torus_cache_entry (sqrtF : ℚ → ℚ) (cache : TorusNeighborCache)
    (tree : List (Vec3Q × Option Entity)) (sims : List (Entity × ℕ))
    (parts : List PRow) (kv : (ℕ × Entity) × List (Entity × Vec3Q × ℕ))
    (hkv : kv ∈ (update_torus_cache sqrtF cache .Teleport tree sims parts).neighbors) :
    ∃ p ∈ parts, find_sim sims p.parent = some kv.1.1 ∧ kv.1.2 = p.entity ∧
      kv.2 = cache_neighbors_for sqrtF cache.grid_bounds
        cache.max_search_distance tree sims parts p.entity p.translation
        kv.1.1 := by
  unfold update_torus_cache at hkv
  rcases List.mem_filterMap.mp hkv with ⟨p, hp, hsome⟩
  rcases hfs : find_sim sims p.parent with _ | sid
  · rw [hfs] at hsome
    exact absurd hsome (by simp)
  · rw [hfs] at hsome
    cases Option.some_inj.mp hsome
    exact ⟨p, hp, hfs, rfl, rfl⟩

/-- C3 (amended): triples stored in the torus neighbor cache by
`update_torus_cache` never contain the keyed particle itself and never
cross population boundaries; `get_torus_neighbors` never returns the
querying particle in any boundary mode, and a Teleport query served from
the cache stays within the querier's population.  (In Bounce mode — and on
a Teleport cache miss — the raw tree search filters only the querier, and
may return other populations' particles; the force pass re-filters them:
see the counterexample.) -/
theorem get_torus_neighbors_sound (sqrtF : ℚ → ℚ)
    (cache : TorusNeighborCache) (tree : List (Vec3Q × Option Entity))
    (sims : List (Entity × ℕ)) (parts : List PRow) :
    (∀ key lst, cache_lookup
        (update_torus_cache sqrtF cache .Teleport tree sims parts).neighbors
        key = some lst →
      ∀ t ∈ lst, t.1 ≠ key.2 ∧ particle_sim sims parts t.1 = some key.1) ∧
    (∀ (sim_id : ℕ) (entity : Entity) (position : Vec3Q) (max_distance : ℚ)
        (mode : BoundaryMode),
      ∀ t ∈ get_torus_neighbors
        (update_torus_cache sqrtF cache .Teleport tree sims parts) tree
        sim_id entity position max_distance mode, t.1 ≠ entity) ∧
    (∀ (sim_id : ℕ) (entity : Entity) (position : Vec3Q) (max_distance : ℚ)
        (lst : List (Entity × Vec3Q × ℕ)),
      cache_lookup
        (update_torus_cache sqrtF cache .Teleport tree sims parts).neighbors
        (sim_id, entity) = some lst →
      ∀ t ∈ get_torus_neighbors
        (update_torus_cache sqrtF cache .Teleport tree sims parts) tree
        sim_id entity position max_distance .Teleport,
        t.1 ≠ entity ∧ particle_sim sims parts t.1 = some sim_id) := by
  have cache_sound : ∀ key lst, cache_lookup
      (update_torus_cache sqrtF cache .Teleport tree sims parts).neighbors
      key = some lst →
      ∀ t ∈ lst, t.1 ≠ key.2 ∧ particle_sim sims parts t.1 = some key.1 := by
    intro key lst hl t ht
    unfold cache_lookup at hl
    rcases hfind : (update_torus_cache sqrtF cache .Teleport tree sims
        parts).neighbors.find? (fun kv => kv.1 = key) with _ | kv
    · rw [hfind] at hl
      exact absurd hl (by simp)
    · rw [hfind] at hl
      simp only [Option.map_some', Option.some.injEq] at hl
      subst hl
      have hkvmem := List.mem_of_find?_eq_some hfind
      have hkey : kv.1 = key := by
        have := List.find?_some hfind
        exact of_decide_eq_true this
      obtain ⟨p, hp, hfs, hent, hlst⟩ :=
        update_torus_cache_entry sqrtF cache tree sims parts kv hkvmem
      subst hkey
      rw [hlst] at ht
      have := cache_neighbors_for_sound sqrtF cache.grid_bounds
        cache.max_search_distance tree sims parts p.entity p.translation
        kv.1.1 t ht
      exact ⟨hent ▸ this.1, this.2⟩
  refine ⟨cache_sound, ?_, ?_⟩
  · intro sim_id entity position max_distance mode t ht
    cases mode with
    | Bounce =>
      exact tree_fallback_neighbors_sound tree entity position max_distance t ht
    | Teleport =>
      unfold get_torus_neighbors at ht
      rcases hl : cache_lookup (update_torus_cache sqrtF cache .Teleport tree
          sims parts).neighbors (sim_id, entity) with _ | lst
      · rw [hl] at ht
        exact tree_fallback_neighbors_sound tree entity position max_distance t ht
      · rw [hl] at ht
        exact (cache_sound (sim_id, entity) lst hl t ht).1
  · intro sim_id entity position max_distance lst hl t ht
    unfold get_torus_neighbors at ht
    rw [hl] at ht
    exact cache_sound (sim_id, entity) lst hl t ht

/-- C3 counterexample: in Bounce mode `get_torus_neighbors` performs a raw
tree search with no population filter: querying for particle 1 of
simulation 0 returns particle 2, which belongs to simulation 1. -/
theorem get_torus_neighbors_crosses_population_in_bounce :
    ((2 : Entity), (⟨0, 0, 0⟩ : Vec3Q), (0 : ℕ)) ∈
      get_torus_neighbors ⟨[], none, 0⟩
        [(⟨0, 0, 0⟩, some 1), (⟨0, 0, 0⟩, some 2)] 0 1 ⟨0, 0, 0⟩ 10
        .Bounce ∧
    particle_sim [(10, 0), (20, 1)]
      [⟨1, ⟨0, 0, 0⟩, 0, 10⟩, ⟨2, ⟨0, 0, 0⟩, 0, 20⟩] 2 = some 1 ∧
    (1 : ℕ) ≠ 0 := by
  refine ⟨?_, rfl, by decide⟩
  norm_num [get_torus_neighbors, tree_fallback_neighbors, within_distance,
    distSq]

/-- Witness for the amended C3: a two-particle single-population world
whose Teleport cache is built by `update_torus_cache`; the cached query
result for particle 1 contains particle 2, which is not the querier and
belongs to population 0. -/
theorem get_torus_neighbors_sound_witness :
    cache_lookup (update_torus_cache id ⟨[], none, 10⟩ .Teleport
        [(⟨0, 0, 0⟩, some 1), (⟨0, 0, 0⟩, some 2)] [(10, 0), (20, 0)]
        [⟨1, ⟨0, 0, 0⟩, 0, 10⟩, ⟨2, ⟨0, 0, 0⟩, 0, 20⟩]).neighbors (0, 1) =
      some [((2 : Entity), (⟨0, 0, 0⟩ : Vec3Q), (0 : ℕ))] ∧
    ((2 : Entity) ≠ 1 ∧ particle_sim [(10, 0), (20, 0)]
      [⟨1, ⟨0, 0, 0⟩, 0, 10⟩, ⟨2, ⟨0, 0, 0⟩, 0, 20⟩] 2 = some 0) := by
  have hl : cache_lookup (update_torus_cache id ⟨[], none, 10⟩ .Teleport
      [(⟨0, 0, 0⟩, some 1), (⟨0, 0, 0⟩, some 2)] [(10, 0), (20, 0)]
      [⟨1, ⟨0, 0, 0⟩, 0, 10⟩, ⟨2, ⟨0, 0, 0⟩, 0, 20⟩]).neighbors (0, 1) =
      some [((2 : Entity), (⟨0, 0, 0⟩ : Vec3Q), (0 : ℕ))] := by
    norm_num [cache_lookup, update_torus_cache, cache_neighbors_for,
      generate_torus_positions, within_distance, distSq, find_sim,
      find_particle, torus_distance, List.find?]
  refine ⟨hl, ?_⟩
  exact (get_torus_neighbors_sound id ⟨[], none, 10⟩
      [(⟨0, 0, 0⟩, some 1), (⟨0, 0, 0⟩, some 2)] [(10, 0), (20, 0)]
      [⟨1, ⟨0, 0, 0⟩, 0, 10⟩, ⟨2, ⟨0, 0, 0⟩, 0, 20⟩]).1 (0, 1)
    [((2 : Entity), (⟨0, 0, 0⟩ : Vec3Q), (0 : ℕ))] hl
    ((2 : Entity), (⟨0, 0, 0⟩ : Vec3Q), (0 : ℕ)) (List.mem_singleton.mpr rfl)

end ParticleLife
